import Mathlib

/-!
# gdp: display-profile state translation, decoding and storage

A shallow embedding of `dbus.go`, `main.go` and `storage.go`.

Conventions of the embedding:

* A Go call either returns or stops with a run-time panic.  Calls that can panic
  live in `Go α := Except Panic α`; the `Except.error` side is the panic.
* A Go error value handed back to the caller is a `GoError`; a `(T, error)` result is
  an `Except GoError T` *inside* `Go`, and a method that only returns `error` while
  filling its receiver returns the receiver together with `Option GoError`.
* `string` is `String`, `int32` is `Int`, `uint32` is `Nat`; the program only copies
  these numbers.  `float64` is carried by its bit pattern, it is only copied as well.
* `map[string]dbus.Variant` is an association list; the program only asks whether a
  key is present.
* A pointer to a record is an `Option`: `none` is `nil`, and reading a field through
  it is `deref`, which panics on `nil`.  This covers every pointer of a snapshot
  (`[]*Monitor`, `Monitor.Id`, `[]*MonitorMode`, `[]*LogicalMonitor`,
  `[]*ConnectorAndMonitorId`), which `json.Unmarshal` may leave `nil`.  The records of
  a request are allocated by `stateToRequest` itself and are plain records.
* A `for ... range` loop that appends to a slice is a recursive function over the
  list, with the slice built so far as its second argument.
-/

set_option autoImplicit false

namespace Gdp

/-! ## Go run-time model -/

/-- Run-time panics that the embedded code can raise. -/
inductive Panic where
  | nilDereference
  | typeAssertion
  | indexOutOfRange
deriving DecidableEq, Repr

/-- An `error` value returned to the caller. -/
structure GoError where
  msg : String
deriving DecidableEq, Repr

/-- The error wrapper `errors.Wrapf(err, message)`. -/
def Wrapf (err : GoError) (message : String) : GoError :=
  ⟨message ++ ": " ++ err.msg⟩

/-- A computation that may panic. -/
abbrev Go (α : Type) : Type := Except Panic α

deriving instance DecidableEq for Except

/-- A `float64`, carried by its IEEE-754 bit pattern. -/
structure Float64 where
  bits : Nat
deriving DecidableEq, Repr

/-- Payload of a `dbus.Variant`; the program never inspects it. -/
inductive Variant where
  | bool (b : Bool)
  | str (s : String)
  | int (i : Int)
  | double (d : Float64)
deriving DecidableEq, Repr

/-- A `map[string]dbus.Variant`. -/
abbrev VariantMap : Type := List (String × Variant)

/-- The two-result map lookup `_, ok := m[key]`, reduced to `ok`. -/
def VariantMap.hasKey (m : VariantMap) (key : String) : Bool :=
  m.any (fun kv => kv.1 == key)

/-- Reading through a pointer: a nil pointer panics. -/
def deref {α : Type} : Option α → Go α
  | some a => pure a
  | none => throw Panic.nilDereference

/-! ## Data model (`dbus.go`) -/

structure ConnectorAndMonitorId where
  Connector : String
  Vendor : String
  Product : String
  Serial : String
deriving DecidableEq, Repr

structure MonitorMode where
  Id : String
  Width : Int
  Height : Int
  RefreshRate : Float64
  PreferredScale : Float64
  SupportedScales : List Float64
  Properties : VariantMap
deriving DecidableEq, Repr

structure Monitor where
  Id : Option ConnectorAndMonitorId
  Modes : List (Option MonitorMode)
  Properties : VariantMap
deriving DecidableEq, Repr

structure LogicalMonitor where
  X : Int
  Y : Int
  Scale : Float64
  Transform : Nat
  Primary : Bool
  Monitors : List (Option ConnectorAndMonitorId)
  Properties : VariantMap
deriving DecidableEq, Repr

structure ConnectorAndMode where
  Connector : String
  Mode : String
  Properties : VariantMap
deriving DecidableEq, Repr

structure LogicalMonitorRequest where
  X : Int
  Y : Int
  Scale : Float64
  Transform : Nat
  Primary : Bool
  Monitors : List ConnectorAndMode
deriving DecidableEq, Repr

structure GetCurrentStateResponse where
  Serial : Nat
  Monitors : List (Option Monitor)
  LogicalMonitors : List (Option LogicalMonitor)
  Properties : VariantMap
deriving DecidableEq, Repr

structure ApplyMonitorsConfigRequest where
  Serial : Nat
  Method : Nat
  LogicalMonitors : List LogicalMonitorRequest
  Properties : VariantMap
deriving DecidableEq, Repr

/-! ## The reconciler (`main.go`, `stateToRequest`) -/

/-- The loop of the closure `findMonitor`.  The test `*monitor.Id == *connectorAndMonitorId`
reads through `monitor`, through `monitor.Id` and through `connectorAndMonitorId`, in
this order; the first monitor that passes it is returned, `nil` when the loop runs
out. -/
def findMonitorLoop (connectorAndMonitorId : Option ConnectorAndMonitorId) :
    List (Option Monitor) → Go (Option Monitor)
  | [] => pure none
  | monitor :: rest => do
    let m ← deref monitor
    let monitorId ← deref m.Id
    let wanted ← deref connectorAndMonitorId
    if monitorId = wanted then pure monitor
    else findMonitorLoop connectorAndMonitorId rest

/-- The closure `findMonitor` of `stateToRequest`. -/
def findMonitor (resp : GetCurrentStateResponse)
    (connectorAndMonitorId : Option ConnectorAndMonitorId) : Go (Option Monitor) :=
  findMonitorLoop connectorAndMonitorId resp.Monitors

/-- The loop of the closure `findCurrentMode`: `mode.Properties` is read through each
mode; the first mode whose properties hold the key `"is-current"` is returned, `nil`
when the loop runs out. -/
def findCurrentModeLoop : List (Option MonitorMode) → Go (Option MonitorMode)
  | [] => pure none
  | mode :: rest => do
    let md ← deref mode
    if md.Properties.hasKey "is-current" then pure mode
    else findCurrentModeLoop rest

/-- The closure `findCurrentMode` of `stateToRequest`; `monitor.Modes` is read through
its argument. -/
def findCurrentMode (monitor : Option Monitor) : Go (Option MonitorMode) := do
  let m ← deref monitor
  findCurrentModeLoop m.Modes

/-- The inner loop of `stateToRequest` over `monitor.Monitors`, with the slice
`connectorAndModes` built so far.  The literal `&ConnectorAndMode{...}` reads
`connectorAndMonitorId.Connector` and then `mode.Id`. -/
def connectorAndModesLoop (resp : GetCurrentStateResponse) :
    List (Option ConnectorAndMonitorId) → List ConnectorAndMode → Go (List ConnectorAndMode)
  | [], connectorAndModes => pure connectorAndModes
  | connectorAndMonitorId :: rest, connectorAndModes => do
    let monitor ← findMonitor resp connectorAndMonitorId
    let mode ← findCurrentMode monitor
    let id ← deref connectorAndMonitorId
    let md ← deref mode
    let connectorAndMode : ConnectorAndMode :=
      { Connector := id.Connector, Mode := md.Id, Properties := [] }
    connectorAndModesLoop resp rest (connectorAndModes ++ [connectorAndMode])

/-- The outer loop of `stateToRequest` over `resp.LogicalMonitors`, with the slice
`monitorRequests` built so far; `monitor.Monitors` is read through each entry. -/
def monitorRequestsLoop (resp : GetCurrentStateResponse) :
    List (Option LogicalMonitor) → List LogicalMonitorRequest →
      Go (List LogicalMonitorRequest)
  | [], monitorRequests => pure monitorRequests
  | monitor :: rest, monitorRequests => do
    let logical ← deref monitor
    let connectorAndModes ← connectorAndModesLoop resp logical.Monitors []
    let monitorRequest : LogicalMonitorRequest :=
      { X := logical.X, Y := logical.Y, Scale := logical.Scale,
        Transform := logical.Transform, Primary := logical.Primary,
        Monitors := connectorAndModes }
    monitorRequestsLoop resp rest (monitorRequests ++ [monitorRequest])

/-- The function `stateToRequest`.  Its only `return` hands back a request and a `nil`
error. -/
def stateToRequest (resp : GetCurrentStateResponse) :
    Go (Except GoError ApplyMonitorsConfigRequest) := do
  let monitorRequests ← monitorRequestsLoop resp resp.LogicalMonitors []
  pure (Except.ok
    { Serial := resp.Serial, Method := 2, LogicalMonitors := monitorRequests,
      Properties := [] })

/-- The part of `switchProfile` from `stateToRequest(desiredState)` to the request
handed to `ApplyMonitorsConfig`: `desiredState` is the saved snapshot, `resp` the live
one.  An error of `stateToRequest` is wrapped and returned. -/
def switchProfileRequest (desiredState resp : GetCurrentStateResponse) :
    Go (Except GoError ApplyMonitorsConfigRequest) := do
  let r ← stateToRequest desiredState
  match r with
  | Except.error err => pure (Except.error (Wrapf err "stateToRequest(conn) failed"))
  | Except.ok req => pure (Except.ok { req with Serial := resp.Serial })

/-! ### Vocabulary of the statements -/

/-- The entry of a monitors list is a monitor whose identity is `id`. -/
def carriesId (id : ConnectorAndMonitorId) (monitor : Option Monitor) : Bool :=
  match monitor with
  | some m => decide (m.Id = some id)
  | none => false

/-- The entry of a modes list is a mode whose properties hold the key `"is-current"`,
whatever the value. -/
def isCurrent (mode : Option MonitorMode) : Bool :=
  match mode with
  | some md => md.Properties.hasKey "is-current"
  | none => false

/-- No pointer of the snapshot is `nil`: every monitor, monitor id, mode, logical
monitor and listed identity is in place. -/
def GetCurrentStateResponse.allPresent (resp : GetCurrentStateResponse) : Bool :=
  resp.Monitors.all (fun monitor =>
    match monitor with
    | some m => m.Id.isSome && m.Modes.all Option.isSome
    | none => false) &&
  resp.LogicalMonitors.all (fun logical =>
    match logical with
    | some l => l.Monitors.all Option.isSome
    | none => false)

/-- One pass of the inner loop body on `connectorAndMonitorId` appends `e`. -/
def Emits (resp : GetCurrentStateResponse)
    (connectorAndMonitorId : Option ConnectorAndMonitorId) (e : ConnectorAndMode) : Prop :=
  ∃ id m md, connectorAndMonitorId = some id ∧
    findMonitor resp connectorAndMonitorId = Except.ok (some m) ∧
    findCurrentModeLoop m.Modes = Except.ok (some md) ∧
    e = { Connector := id.Connector, Mode := md.Id, Properties := [] }

/-- One pass of the outer loop body on `monitor` appends `R`. -/
def Translates (resp : GetCurrentStateResponse) (monitor : Option LogicalMonitor)
    (R : LogicalMonitorRequest) : Prop :=
  ∃ L, monitor = some L ∧
    R.X = L.X ∧ R.Y = L.Y ∧ R.Scale = L.Scale ∧ R.Transform = L.Transform ∧
    R.Primary = L.Primary ∧ List.Forall₂ (Emits resp) L.Monitors R.Monitors

/-- The computation stops, if at all, with a nil-pointer dereference. -/
def PanicsOnlyOnNil {α : Type} (x : Go α) : Prop :=
  ∀ p, x = Except.error p → p = Panic.nilDereference

/-! ### Scenario data -/

def idDP1 : ConnectorAndMonitorId := ⟨"DP-1", "VSC", "VX2705", "W6Z213"⟩

def modeCurrent : MonitorMode :=
  { Id := "1920x1080@60", Width := 1920, Height := 1080, RefreshRate := ⟨60⟩,
    PreferredScale := ⟨1⟩, SupportedScales := [⟨1⟩, ⟨2⟩],
    Properties := [("is-current", Variant.bool true)] }

def modeOther : MonitorMode :=
  { Id := "1280x720@60", Width := 1280, Height := 720, RefreshRate := ⟨60⟩,
    PreferredScale := ⟨1⟩, SupportedScales := [⟨1⟩],
    Properties := [("is-preferred", Variant.bool true)] }

def logicalDP1 : LogicalMonitor :=
  { X := 0, Y := 0, Scale := ⟨1⟩, Transform := 0, Primary := true,
    Monitors := [some idDP1], Properties := [] }

/-- Scenario A of the specification, saved under serial 7. -/
def scenarioA : GetCurrentStateResponse :=
  { Serial := 7, Monitors := [some ⟨some idDP1, [some modeOther, some modeCurrent], []⟩],
    LogicalMonitors := [some logicalDP1], Properties := [("layout-mode", Variant.int 1)] }

/-- What `stateToRequest` returns on scenario A: the saved serial is still in place. -/
def scenarioARequest : ApplyMonitorsConfigRequest :=
  { Serial := 7, Method := 2,
    LogicalMonitors := [⟨0, 0, ⟨1⟩, 0, true, [⟨"DP-1", "1920x1080@60", []⟩]⟩],
    Properties := [] }

/-- A live snapshot with serial 42. -/
def liveState : GetCurrentStateResponse :=
  { Serial := 42, Monitors := [], LogicalMonitors := [], Properties := [] }

/-- A snapshot whose only monitor lists no mode with the key `"is-current"`. -/
def noCurrentModeState : GetCurrentStateResponse :=
  { Serial := 7, Monitors := [some ⟨some idDP1, [some modeOther], []⟩],
    LogicalMonitors := [some logicalDP1], Properties := [] }

/-- A snapshot whose logical monitor names an identity that no monitor carries. -/
def unknownIdentityState : GetCurrentStateResponse :=
  { Serial := 7,
    Monitors := [some ⟨some ⟨"HDMI-1", "VSC", "VX2705", "W6Z213"⟩, [some modeCurrent], []⟩],
    LogicalMonitors := [some logicalDP1], Properties := [] }

/-- A snapshot in which two monitors carry the identity that the logical monitor
names; the first one runs mode `"1920x1080@60"`, the second one `"1280x720@60"`. -/
def duplicateIdentityState : GetCurrentStateResponse :=
  { Serial := 7,
    Monitors := [some ⟨some idDP1, [some modeCurrent], []⟩,
                 some ⟨some idDP1,
                   [some { modeOther with Properties := [("is-current", Variant.bool true)] }],
                   []⟩],
    LogicalMonitors := [some logicalDP1], Properties := [] }

/-- A snapshot with exactly one monitor per identity and exactly one mode with the key
`"is-current"`, whose value is `false`. -/
def currentFalseState : GetCurrentStateResponse :=
  { Serial := 9,
    Monitors := [some ⟨some idDP1, [some modeOther,
                   some { modeCurrent with Properties := [("is-current", Variant.bool false)] }],
                   []⟩],
    LogicalMonitors := [some logicalDP1], Properties := [] }

/-- Scenario A as read from a profile whose `monitors` array starts with `null`: the
one monitor that carries the listed identity follows it. -/
def nullMonitorState : GetCurrentStateResponse :=
  { Serial := 7,
    Monitors := [none, some ⟨some idDP1, [some modeCurrent], []⟩],
    LogicalMonitors := [some logicalDP1], Properties := [] }

/-- Scenario A as read from a profile whose first monitor has no `id`: the monitor that
carries the listed identity follows it. -/
def missingIdState : GetCurrentStateResponse :=
  { Serial := 7,
    Monitors := [some ⟨none, [], []⟩, some ⟨some idDP1, [some modeCurrent], []⟩],
    LogicalMonitors := [some logicalDP1], Properties := [] }

/-! ## The variant decoder (`dbus.go`) -/

/-- A dynamically typed value (`interface{}`) as the bus library hands it over.  The
constructors are the dynamic types that the decoders assert. -/
inductive DbusValue where
  | str (s : String)
  | int32 (n : Int)
  | uint32 (n : Nat)
  | float64 (x : Float64)
  | bool (b : Bool)
  | float64s (xs : List Float64)
  | dict (m : VariantMap)
  | tuple (xs : List DbusValue)
  | tuples (xs : List (List DbusValue))

namespace DbusValue

/-- The type assertion `value.(string)`. -/
def assertString : DbusValue → Go String
  | str s => pure s
  | _ => throw Panic.typeAssertion

/-- The type assertion `value.(int32)`. -/
def assertInt32 : DbusValue → Go Int
  | int32 n => pure n
  | _ => throw Panic.typeAssertion

/-- The type assertion `value.(uint32)`. -/
def assertUint32 : DbusValue → Go Nat
  | uint32 n => pure n
  | _ => throw Panic.typeAssertion

/-- The type assertion `value.(float64)`. -/
def assertFloat64 : DbusValue → Go Float64
  | float64 x => pure x
  | _ => throw Panic.typeAssertion

/-- The type assertion `value.(bool)`. -/
def assertBool : DbusValue → Go Bool
  | bool b => pure b
  | _ => throw Panic.typeAssertion

/-- The type assertion `value.([]float64)`. -/
def assertFloat64s : DbusValue → Go (List Float64)
  | float64s xs => pure xs
  | _ => throw Panic.typeAssertion

/-- The type assertion `value.(map[string]dbus.Variant)`. -/
def assertDict : DbusValue → Go VariantMap
  | dict m => pure m
  | _ => throw Panic.typeAssertion

/-- The type assertion `value.([]interface{})`. -/
def assertSlice : DbusValue → Go (List DbusValue)
  | tuple xs => pure xs
  | _ => throw Panic.typeAssertion

/-- The type assertion `value.([][]interface{})`. -/
def assertSlices : DbusValue → Go (List (List DbusValue))
  | tuples xs => pure xs
  | _ => throw Panic.typeAssertion

end DbusValue

/-- The index expression `raw[i]` on a slice. -/
def index (raw : List DbusValue) (i : Nat) : Go DbusValue :=
  match raw[i]? with
  | some v => pure v
  | none => throw Panic.indexOutOfRange

/-- The decoding loops of `dbus.go`: for each raw element a fresh record is allocated,
filled by its `FromDbusValue`, and the pointer to it appended; the error that
`FromDbusValue` returns is not looked at. -/
def appendDecoded {α β : Type} (FromDbusValue : α → Go (β × Option GoError)) :
    List α → List (Option β) → Go (List (Option β))
  | [], decoded => pure decoded
  | raw :: rest, decoded => do
    let r ← FromDbusValue raw
    appendDecoded FromDbusValue rest (decoded ++ [some r.1])

/-- The method `(*ConnectorAndMonitorId).FromDbusValue`.  The result is the receiver
after the call, every field of which the body assigns, and the returned error. -/
def ConnectorAndMonitorId.FromDbusValue (value : DbusValue) :
    Go (ConnectorAndMonitorId × Option GoError) := do
  let rawId ← value.assertSlice
  let connector ← (← index rawId 0).assertString
  let vendor ← (← index rawId 1).assertString
  let product ← (← index rawId 2).assertString
  let serial ← (← index rawId 3).assertString
  pure ({ Connector := connector, Vendor := vendor, Product := product, Serial := serial },
    none)

/-- The method `(*MonitorMode).FromDbusValue`. -/
def MonitorMode.FromDbusValue (value : DbusValue) : Go (MonitorMode × Option GoError) := do
  let rawMode ← value.assertSlice
  let id ← (← index rawMode 0).assertString
  let width ← (← index rawMode 1).assertInt32
  let height ← (← index rawMode 2).assertInt32
  let refreshRate ← (← index rawMode 3).assertFloat64
  let preferredScale ← (← index rawMode 4).assertFloat64
  let supportedScales ← (← index rawMode 5).assertFloat64s
  let properties ← (← index rawMode 6).assertDict
  pure ({ Id := id, Width := width, Height := height, RefreshRate := refreshRate,
          PreferredScale := preferredScale, SupportedScales := supportedScales,
          Properties := properties }, none)

/-- The method `(*Monitor).FromDbusValue`. -/
def Monitor.FromDbusValue (value : DbusValue) : Go (Monitor × Option GoError) := do
  let rawMonitor ← value.assertSlice
  let id ← ConnectorAndMonitorId.FromDbusValue (← index rawMonitor 0)
  let rawModes ← (← index rawMonitor 1).assertSlices
  let modes ← appendDecoded (fun rawMode => MonitorMode.FromDbusValue (DbusValue.tuple rawMode))
    rawModes []
  let properties ← (← index rawMonitor 2).assertDict
  pure ({ Id := some id.1, Modes := modes, Properties := properties }, none)

/-- The method `(*LogicalMonitor).FromDbusValue`. -/
def LogicalMonitor.FromDbusValue (value : DbusValue) :
    Go (LogicalMonitor × Option GoError) := do
  let rawLogicalMonitor ← value.assertSlice
  let x ← (← index rawLogicalMonitor 0).assertInt32
  let y ← (← index rawLogicalMonitor 1).assertInt32
  let scale ← (← index rawLogicalMonitor 2).assertFloat64
  let transform ← (← index rawLogicalMonitor 3).assertUint32
  let primary ← (← index rawLogicalMonitor 4).assertBool
  let rawMonitorIds ← (← index rawLogicalMonitor 5).assertSlices
  let monitorIds ← appendDecoded
    (fun rawMonitorId => ConnectorAndMonitorId.FromDbusValue (DbusValue.tuple rawMonitorId))
    rawMonitorIds []
  let properties ← (← index rawLogicalMonitor 6).assertDict
  pure ({ X := x, Y := y, Scale := scale, Transform := transform, Primary := primary,
          Monitors := monitorIds, Properties := properties }, none)

structure GetCurrentStateRawResponse where
  Serial : Nat
  Monitors : List (List DbusValue)
  LogicalMonitors : List (List DbusValue)
  Properties : VariantMap

/-- The method `(*GetCurrentStateRawResponse).ToGetCurrentStateResponse`.  Its only
`return` hands back the response and a `nil` error. -/
def GetCurrentStateRawResponse.ToGetCurrentStateResponse (this : GetCurrentStateRawResponse) :
    Go (Except GoError GetCurrentStateResponse) := do
  let monitors ← appendDecoded
    (fun rawMonitor => Monitor.FromDbusValue (DbusValue.tuple rawMonitor)) this.Monitors []
  let logicalMonitors ← appendDecoded
    (fun rawLogicalMonitor => LogicalMonitor.FromDbusValue (DbusValue.tuple rawLogicalMonitor))
    this.LogicalMonitors []
  pure (Except.ok
    { Serial := this.Serial, Monitors := monitors, LogicalMonitors := logicalMonitors,
      Properties := this.Properties })

/-! ### Expected shapes

The shapes follow the signature of `GetCurrentState` quoted in `dbus.go`:
`a((ssss)a(siiddada{sv})a{sv})` for the monitors and `a(iiduba(ssss)a{sv})` for the
logical monitors.  `shaped` asks for the positional elements that the entity has, each
of its type; `wellFormed` asks in addition that nothing follows them. -/

/-- An identity tuple `(ssss)`, possibly followed by further elements. -/
def ConnectorAndMonitorId.shaped : DbusValue → Bool
  | .tuple (.str _ :: .str _ :: .str _ :: .str _ :: _) => true
  | _ => false

/-- A mode tuple `(siiddada{sv})`, possibly followed by further elements. -/
def MonitorMode.shaped : DbusValue → Bool
  | .tuple (.str _ :: .int32 _ :: .int32 _ :: .float64 _ :: .float64 _ :: .float64s _ ::
      .dict _ :: _) => true
  | _ => false

/-- A monitor tuple `((ssss)a(siiddada{sv})a{sv})`, possibly followed by further
elements. -/
def Monitor.shaped : DbusValue → Bool
  | .tuple (rawId :: .tuples rawModes :: .dict _ :: _) =>
    ConnectorAndMonitorId.shaped rawId &&
      rawModes.all (fun rawMode => MonitorMode.shaped (.tuple rawMode))
  | _ => false

/-- A logical-monitor tuple `(iiduba(ssss)a{sv})`, possibly followed by further
elements. -/
def LogicalMonitor.shaped : DbusValue → Bool
  | .tuple (.int32 _ :: .int32 _ :: .float64 _ :: .uint32 _ :: .bool _ :: .tuples rawIds ::
      .dict _ :: _) =>
    rawIds.all (fun rawId => ConnectorAndMonitorId.shaped (.tuple rawId))
  | _ => false

/-- An identity tuple `(ssss)` and nothing more. -/
def ConnectorAndMonitorId.wellFormed : DbusValue → Bool
  | .tuple [.str _, .str _, .str _, .str _] => true
  | _ => false

/-- A mode tuple `(siiddada{sv})` and nothing more. -/
def MonitorMode.wellFormed : DbusValue → Bool
  | .tuple [.str _, .int32 _, .int32 _, .float64 _, .float64 _, .float64s _, .dict _] => true
  | _ => false

/-- A monitor tuple `((ssss)a(siiddada{sv})a{sv})` and nothing more. -/
def Monitor.wellFormed : DbusValue → Bool
  | .tuple [rawId, .tuples rawModes, .dict _] =>
    ConnectorAndMonitorId.wellFormed rawId &&
      rawModes.all (fun rawMode => MonitorMode.wellFormed (.tuple rawMode))
  | _ => false

/-- A logical-monitor tuple `(iiduba(ssss)a{sv})` and nothing more. -/
def LogicalMonitor.wellFormed : DbusValue → Bool
  | .tuple [.int32 _, .int32 _, .float64 _, .uint32 _, .bool _, .tuples rawIds, .dict _] =>
    rawIds.all (fun rawId => ConnectorAndMonitorId.wellFormed (.tuple rawId))
  | _ => false

/-- A reply of `GetCurrentState` all of whose monitors and logical monitors are well
formed. -/
def GetCurrentStateRawResponse.wellFormed (this : GetCurrentStateRawResponse) : Bool :=
  this.Monitors.all (fun rawMonitor => Monitor.wellFormed (.tuple rawMonitor)) &&
    this.LogicalMonitors.all
      (fun rawLogicalMonitor => LogicalMonitor.wellFormed (.tuple rawLogicalMonitor))

/-- Re-encoding of an identity as the tuple `[connector, vendor, product, serial]`. -/
def ConnectorAndMonitorId.toFields (id : ConnectorAndMonitorId) : List DbusValue :=
  [.str id.Connector, .str id.Vendor, .str id.Product, .str id.Serial]

/-- The computation does not stop with a nil-pointer dereference. -/
def NoNilDereference {α : Type} (x : Go α) : Prop :=
  x ≠ Except.error Panic.nilDereference

/-! ### Raw values -/

/-- An identity tuple with three elements instead of four. -/
def shortIdentity : DbusValue := .tuple [.str "DP-1", .str "VSC", .str "VX2705"]

/-- An identity tuple whose second element is an `int32` instead of a string. -/
def mistypedIdentity : DbusValue :=
  .tuple [.str "DP-1", .int32 5, .str "VX2705", .str "W6Z213"]

/-- A reply whose only monitor carries the short identity tuple. -/
def shortIdentityReply : GetCurrentStateRawResponse :=
  { Serial := 3, Monitors := [[shortIdentity, .tuples [], .dict []]],
    LogicalMonitors := [], Properties := [] }

/-- A well-formed reply of `GetCurrentState`: one monitor and one logical monitor. -/
def scenarioAReply : GetCurrentStateRawResponse :=
  { Serial := 7,
    Monitors := [[.tuple [.str "DP-1", .str "VSC", .str "VX2705", .str "W6Z213"],
      .tuples [[.str "1920x1080@60", .int32 1920, .int32 1080, .float64 ⟨60⟩, .float64 ⟨1⟩,
        .float64s [⟨1⟩, ⟨2⟩], .dict [("is-current", Variant.bool true)]]],
      .dict []]],
    LogicalMonitors := [[.int32 0, .int32 0, .float64 ⟨1⟩, .uint32 0, .bool true,
      .tuples [[.str "DP-1", .str "VSC", .str "VX2705", .str "W6Z213"]], .dict []]],
    Properties := [] }

/-! ## The profile store (`storage.go`) -/

/-- The content of a file. -/
abbrev Bytes : Type := List UInt8

/-- What a name of the profile directory is bound to: a regular file with its content,
or a sub-directory, of which only emptiness matters here. -/
inductive DirEntry where
  | file (data : Bytes)
  | dir (empty : Bool)
deriving DecidableEq, Repr

/-- The profile directory `configDir` as a map from file name to entry: the first pair
with a name binds it; the order of the pairs carries no meaning. -/
abbrev Directory : Type := List (String × DirEntry)

/-- What `ioutil.ReadDir` reports of an entry: `Name()` and `IsDir()`. -/
structure FileInfo where
  Name : String
  IsDir : Bool
deriving DecidableEq, Repr

/-- The entry that a file name is bound to. -/
def Directory.lookup (dir : Directory) (fileName : String) : Option DirEntry :=
  (dir.find? (fun e => e.1 == fileName)).map (fun e => e.2)

/-- The directory without the binding of a file name. -/
def Directory.unbind (dir : Directory) (fileName : String) : Directory :=
  dir.filter (fun e => e.1 != fileName)

/-- Whether a file name holds the path separator.  Such a name designates a path that
leaves the directory; the map has no sub-directory content to resolve it in, and the
calls below answer it with the error of a missing directory. -/
def hasSeparator (fileName : String) : Bool :=
  fileName.data.contains '/'

/-- Whether the file system takes the name: no NUL byte and at most 255 bytes. -/
def validFileName (fileName : String) : Bool :=
  !fileName.data.contains (Char.ofNat 0) && decide (fileName.utf8ByteSize ≤ 255)

/-- Model of `os.WriteFile` on the path `configDir/fileName`: the file is created or
truncated and written.  The call fails on a name the file system does not take and on
the name of a sub-directory. -/
def osWriteFile (dir : Directory) (fileName : String) (data : Bytes) :
    Directory × Option GoError :=
  if hasSeparator fileName then (dir, some ⟨"open: no such file or directory"⟩)
  else if !validFileName fileName then (dir, some ⟨"open: file name too long or invalid"⟩)
  else
    match dir.lookup fileName with
    | some (DirEntry.dir _) => (dir, some ⟨"open: is a directory"⟩)
    | _ => ((fileName, DirEntry.file data) :: dir.unbind fileName, none)

/-- Model of `os.ReadFile` on the path `configDir/fileName`. -/
def osReadFile (dir : Directory) (fileName : String) : Except GoError Bytes :=
  if hasSeparator fileName then Except.error ⟨"open: no such file or directory"⟩
  else if !validFileName fileName then Except.error ⟨"open: file name too long or invalid"⟩
  else
    match dir.lookup fileName with
    | some (DirEntry.file data) => Except.ok data
    | some (DirEntry.dir _) => Except.error ⟨"read: is a directory"⟩
    | none => Except.error ⟨"open: no such file or directory"⟩

/-- Model of `os.Remove` on the path `configDir/fileName`: a file or an empty
sub-directory is removed. -/
def osRemove (dir : Directory) (fileName : String) : Directory × Option GoError :=
  if hasSeparator fileName then (dir, some ⟨"remove: no such file or directory"⟩)
  else if !validFileName fileName then (dir, some ⟨"remove: file name too long or invalid"⟩)
  else
    match dir.lookup fileName with
    | some (DirEntry.file _) => (dir.unbind fileName, none)
    | some (DirEntry.dir true) => (dir.unbind fileName, none)
    | some (DirEntry.dir false) => (dir, some ⟨"remove: directory not empty"⟩)
    | none => (dir, some ⟨"remove: no such file or directory"⟩)

/-- What `ioutil.ReadDir` reports of the name `fileName` of the directory. -/
def Directory.fileInfo (dir : Directory) (fileName : String) : FileInfo :=
  { Name := fileName,
    IsDir := match dir.lookup fileName with
      | some (DirEntry.dir _) => true
      | _ => false }

/-- The order of file names by which `ioutil.ReadDir` sorts: lexicographic, character
by character. -/
def nameLE : List Char → List Char → Bool
  | [], _ => true
  | _ :: _, [] => false
  | a :: as, b :: bs =>
    if a.toNat < b.toNat then true
    else if b.toNat < a.toNat then false
    else nameLE as bs

/-- Model of `ioutil.ReadDir` on `configDir`: one `FileInfo` per bound name, sorted by
file name. -/
def ioutilReadDir (dir : Directory) : Except GoError (List FileInfo) :=
  Except.ok (((dir.map (fun e => e.1)).dedup.map dir.fileInfo).insertionSort
    (fun a b => nameLE a.Name.data b.Name.data = true))

/-- The library function `strings.HasSuffix`:
`len(s) >= len(suffix) && s[len(s)-len(suffix):] == suffix`. -/
def stringsHasSuffix (s suffix : String) : Bool :=
  decide (suffix.length ≤ s.length) && s.data.drop (s.length - suffix.length) == suffix.data

/-- The slice expression `s[:n]`. -/
def sliceTo (s : String) (n : Nat) : String :=
  ⟨s.data.take n⟩

/-- The method `(*localStorage).Store`, on the directory `this.configDir`. -/
def localStorage.Store (dir : Directory) (name : String) (data : Bytes) :
    Directory × Option GoError :=
  match osWriteFile dir (name ++ ".json") data with
  | (dir1, some err) => (dir1, some (Wrapf err "os.WriteFile(path, data, 0644) failed"))
  | (dir1, none) => (dir1, none)

/-- The method `(*localStorage).Load`. -/
def localStorage.Load (dir : Directory) (name : String) : Except GoError Bytes :=
  match osReadFile dir (name ++ ".json") with
  | Except.error err => Except.error (Wrapf err "os.ReadFile(path) failed")
  | Except.ok data => Except.ok data

/-- The loop of `(*localStorage).List` over the directory entries, with the slice
`profiles` built so far. -/
def profilesLoop : List FileInfo → List String → List String
  | [], profiles => profiles
  | file :: rest, profiles =>
    if file.IsDir then profilesLoop rest profiles
    else if !stringsHasSuffix file.Name ".json" then profilesLoop rest profiles
    else profilesLoop rest (profiles ++ [sliceTo file.Name (file.Name.length - ".json".length)])

/-- The method `(*localStorage).List`. -/
def localStorage.List (dir : Directory) : Except GoError (List String) :=
  match ioutilReadDir dir with
  | Except.error err => Except.error (Wrapf err "ioutil.ReadDir(configDir) failed")
  | Except.ok files => Except.ok (profilesLoop files [])

/-- The method `(*localStorage).Delete`. -/
def localStorage.Delete (dir : Directory) (name : String) : Directory × Option GoError :=
  match osRemove dir (name ++ ".json") with
  | (dir1, some err) => (dir1, some (Wrapf err "os.Remove(path) failed"))
  | (dir1, none) => (dir1, none)

/-! ### Profile directories -/

/-- A directory with one profile and one file that is not a profile. -/
def someDirectory : Directory :=
  [("home.json", DirEntry.file [1, 2]), ("notes.txt", DirEntry.file [3])]

/-- A directory in which `work.json` is a sub-directory. -/
def subdirDirectory : Directory :=
  [("work.json", DirEntry.dir true), ("home.json", DirEntry.file [1, 2])]

/-- A profile name of 300 bytes. -/
def longName : String := ⟨List.replicate 300 'w'⟩

/-! # Theorems -/

/-! ## Lemmas on the Go run-time model -/

theorem bind_eq_ok {α β : Type} (x : Go α) (f : α → Go β) (b : β) :
    (x >>= f) = Except.ok b ↔ ∃ a, x = Except.ok a ∧ f a = Except.ok b := by
  cases x with
  | error p => simp [bind, Except.bind]
  | ok a => simp [bind, Except.bind]

theorem pure_eq_ok {α : Type} (a b : α) : (pure a : Go α) = Except.ok b ↔ a = b := by
  simp [pure, Except.pure]

theorem deref_eq_ok {α : Type} (x : Option α) (a : α) :
    deref x = Except.ok a ↔ x = some a := by
  cases x with
  | none => simp [deref, throw, throwThe, MonadExceptOf.throw]
  | some b => simp [deref, pure, Except.pure]

theorem ok_bind {α β : Type} (a : α) (f : α → Go β) :
    ((Except.ok a : Go α) >>= f) = f a := rfl

theorem deref_some {α : Type} (a : α) : deref (some a) = Except.ok a := rfl

theorem onlyNil_bind {α β : Type} (x : Go α) (f : α → Go β)
    (hx : PanicsOnlyOnNil x) (hf : ∀ a, PanicsOnlyOnNil (f a)) :
    PanicsOnlyOnNil (x >>= f) := by
  cases x with
  | error p =>
    intro q h
    apply hx
    simpa [bind, Except.bind] using h
  | ok a => simpa [bind, Except.bind] using hf a

theorem onlyNil_pure {α : Type} (a : α) : PanicsOnlyOnNil (pure a : Go α) := by
  intro p h
  cases h

theorem onlyNil_deref {α : Type} (x : Option α) : PanicsOnlyOnNil (deref x) := by
  cases x with
  | none =>
    intro p h
    cases h
    rfl
  | some a => exact onlyNil_pure a

/-! ## Lemmas on the reconciler -/

theorem onlyNil_findMonitorLoop (id : Option ConnectorAndMonitorId) :
    ∀ ms : List (Option Monitor), PanicsOnlyOnNil (findMonitorLoop id ms)
  | [] => onlyNil_pure _
  | monitor :: rest => by
    unfold findMonitorLoop
    refine onlyNil_bind _ _ (onlyNil_deref _) (fun m => ?_)
    refine onlyNil_bind _ _ (onlyNil_deref _) (fun mid => ?_)
    refine onlyNil_bind _ _ (onlyNil_deref _) (fun wanted => ?_)
    split
    · exact onlyNil_pure _
    · exact onlyNil_findMonitorLoop id rest

theorem onlyNil_findCurrentModeLoop :
    ∀ mds : List (Option MonitorMode), PanicsOnlyOnNil (findCurrentModeLoop mds)
  | [] => onlyNil_pure _
  | mode :: rest => by
    unfold findCurrentModeLoop
    refine onlyNil_bind _ _ (onlyNil_deref _) (fun md => ?_)
    split
    · exact onlyNil_pure _
    · exact onlyNil_findCurrentModeLoop rest

theorem onlyNil_findCurrentMode (monitor : Option Monitor) :
    PanicsOnlyOnNil (findCurrentMode monitor) := by
  unfold findCurrentMode
  exact onlyNil_bind _ _ (onlyNil_deref _) (fun m => onlyNil_findCurrentModeLoop _)

theorem onlyNil_connectorAndModesLoop (resp : GetCurrentStateResponse) :
    ∀ (ids : List (Option ConnectorAndMonitorId)) (acc : List ConnectorAndMode),
      PanicsOnlyOnNil (connectorAndModesLoop resp ids acc)
  | [], acc => onlyNil_pure _
  | id :: rest, acc => by
    unfold connectorAndModesLoop
    refine onlyNil_bind _ _ (onlyNil_findMonitorLoop _ _) (fun monitor => ?_)
    refine onlyNil_bind _ _ (onlyNil_findCurrentMode _) (fun mode => ?_)
    refine onlyNil_bind _ _ (onlyNil_deref _) (fun i => ?_)
    refine onlyNil_bind _ _ (onlyNil_deref _) (fun md => ?_)
    exact onlyNil_connectorAndModesLoop resp rest _

theorem onlyNil_monitorRequestsLoop (resp : GetCurrentStateResponse) :
    ∀ (Ls : List (Option LogicalMonitor)) (acc : List LogicalMonitorRequest),
      PanicsOnlyOnNil (monitorRequestsLoop resp Ls acc)
  | [], acc => onlyNil_pure _
  | L :: rest, acc => by
    unfold monitorRequestsLoop
    refine onlyNil_bind _ _ (onlyNil_deref _) (fun l => ?_)
    refine onlyNil_bind _ _ (onlyNil_connectorAndModesLoop resp _ _) (fun es => ?_)
    exact onlyNil_monitorRequestsLoop resp rest _

/-- The only panic of `stateToRequest` is the nil-pointer dereference. -/
theorem onlyNil_stateToRequest (resp : GetCurrentStateResponse) :
    PanicsOnlyOnNil (stateToRequest resp) := by
  unfold stateToRequest
  exact onlyNil_bind _ _ (onlyNil_monitorRequestsLoop resp _ _) (fun rs => onlyNil_pure _)

/-- Whatever `stateToRequest` returns is the request of its `return` statement, with a
`nil` error. -/
theorem stateToRequest_returns (resp : GetCurrentStateResponse)
    (r : Except GoError ApplyMonitorsConfigRequest)
    (h : stateToRequest resp = Except.ok r) :
    ∃ rs, r = Except.ok
      { Serial := resp.Serial, Method := 2, LogicalMonitors := rs, Properties := [] } := by
  simp only [stateToRequest, bind_eq_ok, pure_eq_ok] at h
  obtain ⟨rs, _, hr⟩ := h
  exact ⟨rs, hr.symm⟩

/-- No path of `stateToRequest` returns an error value to its caller. -/
theorem stateToRequest_never_returns_error (resp : GetCurrentStateResponse) (err : GoError) :
    stateToRequest resp ≠ Except.ok (Except.error err) := by
  intro h
  obtain ⟨rs, hr⟩ := stateToRequest_returns resp _ h
  cases hr

theorem connectorAndModesLoop_cons_emits (resp : GetCurrentStateResponse)
    (id : Option ConnectorAndMonitorId) (rest : List (Option ConnectorAndMonitorId))
    (acc : List ConnectorAndMode) (e : ConnectorAndMode) (h : Emits resp id e) :
    connectorAndModesLoop resp (id :: rest) acc =
      connectorAndModesLoop resp rest (acc ++ [e]) := by
  obtain ⟨i, m, md, rfl, hm, hmd, rfl⟩ := h
  simp only [connectorAndModesLoop, hm, findCurrentMode, deref_some, ok_bind, hmd]

/-- The inner loop succeeds when every pass emits, and appends one entry per listed
identity, in order. -/
theorem connectorAndModesLoop_ok (resp : GetCurrentStateResponse) :
    ∀ (ids : List (Option ConnectorAndMonitorId)) (acc : List ConnectorAndMode),
      (∀ id ∈ ids, ∃ e, Emits resp id e) →
      ∃ es, connectorAndModesLoop resp ids acc = Except.ok (acc ++ es) ∧
        List.Forall₂ (Emits resp) ids es
  | [], acc, _ => ⟨[], by simp [connectorAndModesLoop, pure, Except.pure], List.Forall₂.nil⟩
  | id :: rest, acc, h => by
    obtain ⟨e, he⟩ := h id (List.mem_cons_self _ _)
    obtain ⟨es, hes, hall⟩ := connectorAndModesLoop_ok resp rest (acc ++ [e])
      (fun i hi => h i (List.mem_cons_of_mem _ hi))
    refine ⟨e :: es, ?_, List.Forall₂.cons he hall⟩
    rw [connectorAndModesLoop_cons_emits resp id rest acc e he, hes]
    simp

theorem monitorRequestsLoop_ok (resp : GetCurrentStateResponse) :
    ∀ (Ls : List (Option LogicalMonitor)) (acc : List LogicalMonitorRequest),
      (∀ x ∈ Ls, ∃ L, x = some L ∧ ∀ id ∈ L.Monitors, ∃ e, Emits resp id e) →
      ∃ rs, monitorRequestsLoop resp Ls acc = Except.ok (acc ++ rs) ∧
        List.Forall₂ (Translates resp) Ls rs
  | [], acc, _ => ⟨[], by simp [monitorRequestsLoop, pure, Except.pure], List.Forall₂.nil⟩
  | x :: rest, acc, h => by
    obtain ⟨L, rfl, hL⟩ := h x (List.mem_cons_self _ _)
    obtain ⟨es, hes, hall⟩ := connectorAndModesLoop_ok resp L.Monitors [] hL
    obtain ⟨rs, hrs, hrall⟩ := monitorRequestsLoop_ok resp rest
      (acc ++ [{ X := L.X, Y := L.Y, Scale := L.Scale, Transform := L.Transform,
                 Primary := L.Primary, Monitors := es }])
      (fun M hM => h M (List.mem_cons_of_mem _ hM))
    refine ⟨{ X := L.X, Y := L.Y, Scale := L.Scale, Transform := L.Transform,
              Primary := L.Primary, Monitors := es } :: rs, ?_,
      List.Forall₂.cons ⟨L, rfl, rfl, rfl, rfl, rfl, rfl, hall⟩ hrall⟩
    simp only [List.nil_append] at hes
    simp only [monitorRequestsLoop, deref_some, ok_bind, hes]
    simpa using hrs

/-- When every pass of the loops emits, `stateToRequest` returns a request and a `nil`
error; the request is assembled field by field as in the source. -/
theorem stateToRequest_ok (resp : GetCurrentStateResponse)
    (h : ∀ x ∈ resp.LogicalMonitors, ∃ L, x = some L ∧
      ∀ id ∈ L.Monitors, ∃ e, Emits resp id e) :
    ∃ rs, stateToRequest resp = Except.ok (Except.ok
        { Serial := resp.Serial, Method := 2, LogicalMonitors := rs, Properties := [] }) ∧
      List.Forall₂ (Translates resp) resp.LogicalMonitors rs := by
  obtain ⟨rs, hrs, hall⟩ := monitorRequestsLoop_ok resp resp.LogicalMonitors [] h
  refine ⟨rs, ?_, hall⟩
  simp only [stateToRequest, hrs, List.nil_append]
  rfl

/-- Among monitors that are all in place with their ids, `findMonitor` returns the
first one that carries the identity. -/
theorem findMonitorLoop_of_filter (id : ConnectorAndMonitorId) (m : Monitor)
    (others : List (Option Monitor)) :
    ∀ ms : List (Option Monitor),
      (∀ x ∈ ms, ∃ xm xid, x = some xm ∧ xm.Id = some xid) →
      ms.filter (carriesId id) = some m :: others →
      findMonitorLoop (some id) ms = Except.ok (some m)
  | [], _, h => by simp at h
  | x :: rest, hp, h => by
    obtain ⟨xm, xid, rfl, hxid⟩ := hp _ (List.mem_cons_self _ _)
    by_cases hx : xid = id
    · subst hx
      have hc : carriesId xid (some xm) = true := by simp [carriesId, hxid]
      simp only [List.filter_cons, hc, if_true] at h
      obtain ⟨h1, _⟩ := List.cons.inj h
      cases h1
      simp [findMonitorLoop, deref, hxid, bind, Except.bind, pure, Except.pure]
    · have hc : carriesId id (some xm) = false := by
        simp [carriesId, hxid, hx]
      simp only [List.filter_cons, hc] at h
      have ih := findMonitorLoop_of_filter id m others rest
        (fun y hy => hp y (List.mem_cons_of_mem _ hy)) (by simpa using h)
      simp [findMonitorLoop, deref, hxid, hx, bind, Except.bind, pure, Except.pure, ih]

/-- Among modes that are all in place, `findCurrentMode` returns the first one with
the key `"is-current"`. -/
theorem findCurrentModeLoop_of_filter (md : MonitorMode) (others : List (Option MonitorMode)) :
    ∀ mds : List (Option MonitorMode),
      (∀ y ∈ mds, ∃ ymd, y = some ymd) →
      mds.filter isCurrent = some md :: others →
      findCurrentModeLoop mds = Except.ok (some md)
  | [], _, h => by simp at h
  | y :: rest, hp, h => by
    obtain ⟨ymd, rfl⟩ := hp _ (List.mem_cons_self _ _)
    by_cases hy : ymd.Properties.hasKey "is-current" = true
    · have hc : isCurrent (some ymd) = true := hy
      simp only [List.filter_cons, hc, if_true] at h
      obtain ⟨h1, _⟩ := List.cons.inj h
      cases h1
      simp [findCurrentModeLoop, deref, hy, bind, Except.bind, pure, Except.pure]
    · have hc : isCurrent (some ymd) = false := by
        simpa [isCurrent] using hy
      simp only [List.filter_cons, hc] at h
      have ih := findCurrentModeLoop_of_filter md others rest
        (fun z hz => hp z (List.mem_cons_of_mem _ hz)) (by simpa using h)
      simp [findCurrentModeLoop, deref, hy, bind, Except.bind, pure, Except.pure, ih]

theorem allPresent_monitors (resp : GetCurrentStateResponse) (hp : resp.allPresent = true) :
    ∀ x ∈ resp.Monitors, ∃ xm xid, x = some xm ∧ xm.Id = some xid ∧
      ∀ y ∈ xm.Modes, ∃ ymd, y = some ymd := by
  simp only [GetCurrentStateResponse.allPresent, Bool.and_eq_true, List.all_eq_true] at hp
  intro x hx
  have h := hp.1 x hx
  cases x with
  | none => simp at h
  | some xm =>
    simp only [Bool.and_eq_true, List.all_eq_true, Option.isSome_iff_exists] at h
    obtain ⟨xid, hxid⟩ := h.1
    exact ⟨xm, xid, rfl, hxid, fun y hy => h.2 y hy⟩

theorem allPresent_logicalMonitors (resp : GetCurrentStateResponse)
    (hp : resp.allPresent = true) :
    ∀ x ∈ resp.LogicalMonitors, ∃ L, x = some L ∧ ∀ i ∈ L.Monitors, ∃ id, i = some id := by
  simp only [GetCurrentStateResponse.allPresent, Bool.and_eq_true, List.all_eq_true] at hp
  intro x hx
  have h := hp.2 x hx
  cases x with
  | none => simp at h
  | some L =>
    simp only [List.all_eq_true, Option.isSome_iff_exists] at h
    exact ⟨L, rfl, fun i hi => h i hi⟩

theorem mem_of_filter_eq_cons {α : Type} (p : α → Bool) (l : List α) (a : α) (rest : List α)
    (h : l.filter p = a :: rest) : a ∈ l ∧ p a = true := by
  have : a ∈ l.filter p := by rw [h]; exact List.mem_cons_self _ _
  exact List.mem_filter.mp this

/-- In a snapshot without nil pointers, an identity whose first carrier has a first
current mode is emitted with that mode. -/
theorem emits_of_first_match (resp : GetCurrentStateResponse) (hp : resp.allPresent = true)
    (id : ConnectorAndMonitorId) (m : Monitor) (others : List (Option Monitor))
    (md : MonitorMode) (later : List (Option MonitorMode))
    (hm : resp.Monitors.filter (carriesId id) = some m :: others)
    (hmd : m.Modes.filter isCurrent = some md :: later) :
    Emits resp (some id) { Connector := id.Connector, Mode := md.Id, Properties := [] } := by
  have hmon := allPresent_monitors resp hp
  refine ⟨id, m, md, rfl, ?_, ?_, rfl⟩
  · exact findMonitorLoop_of_filter id m others resp.Monitors
      (fun x hx => by
        obtain ⟨xm, xid, h1, h2, _⟩ := hmon x hx
        exact ⟨xm, xid, h1, h2⟩) hm
  · obtain ⟨xm, xid, h1, _, h3⟩ := hmon _ (mem_of_filter_eq_cons _ _ _ _ hm).1
    cases h1
    exact findCurrentModeLoop_of_filter md later m.Modes h3 hmd

/-- A list of modes that holds a current mode has a first current mode. -/
theorem exists_first_current (mds : List (Option MonitorMode)) (md : MonitorMode)
    (hmem : some md ∈ mds) (hcur : md.Properties.hasKey "is-current" = true) :
    ∃ first later, mds.filter isCurrent = some first :: later := by
  have hin : some md ∈ mds.filter isCurrent := List.mem_filter.mpr ⟨hmem, hcur⟩
  cases hf : mds.filter isCurrent with
  | nil => rw [hf] at hin; cases hin
  | cons x later =>
    have hx := (mem_of_filter_eq_cons _ _ _ _ hf).2
    cases x with
    | none => simp [isCurrent] at hx
    | some first => exact ⟨first, later, rfl⟩

/-! ## Claims on the reconciler -/

/-- C1: whenever `stateToRequest` succeeds on the saved snapshot, the request that
`switchProfile` hands to `ApplyMonitorsConfig` is built and its serial is the serial of
the live snapshot, whatever the saved serial is. -/
theorem switchProfileRequest_serial_is_live (desiredState resp : GetCurrentStateResponse)
    (r : ApplyMonitorsConfigRequest)
    (h : stateToRequest desiredState = Except.ok (Except.ok r)) :
    ∃ req, switchProfileRequest desiredState resp = Except.ok (Except.ok req) ∧
      req.Serial = resp.Serial ∧ req.Method = r.Method ∧
      req.LogicalMonitors = r.LogicalMonitors ∧ req.Properties = r.Properties := by
  refine ⟨{ r with Serial := resp.Serial }, ?_, rfl, rfl, rfl, rfl⟩
  simp only [switchProfileRequest, h]
  rfl

theorem switchProfileRequest_serial_is_live_witness :
    scenarioA.Serial = 7 ∧ liveState.Serial = 42 ∧
    ∃ req, switchProfileRequest scenarioA liveState = Except.ok (Except.ok req) ∧
      req.Serial = liveState.Serial ∧ req.Method = 2 ∧
      req.LogicalMonitors = [⟨0, 0, ⟨1⟩, 0, true, [⟨"DP-1", "1920x1080@60", []⟩]⟩] ∧
      req.Properties = [] :=
  ⟨rfl, rfl, switchProfileRequest_serial_is_live scenarioA liveState scenarioARequest rfl⟩

/-- C2, refuted at `nullMonitorState`: the listed identity equals the identity of
exactly one entry of the monitors list, that monitor has exactly one mode with the key
`"is-current"`, and `stateToRequest` emits no request: it reads the identity of the
`nil` entry ahead of the match and panics. -/
theorem stateToRequest_nullMonitor_panics :
    (∀ L, some L ∈ nullMonitorState.LogicalMonitors → ∀ id, some id ∈ L.Monitors →
      ∃ m md, nullMonitorState.Monitors.filter (carriesId id) = [some m] ∧
        m.Modes.filter isCurrent = [some md]) ∧
    stateToRequest nullMonitorState = Except.error Panic.nilDereference := by
  refine ⟨?_, rfl⟩
  intro L hL id hid
  simp only [nullMonitorState, List.mem_singleton, Option.some.injEq] at hL
  subst hL
  simp only [logicalDP1, List.mem_singleton, Option.some.injEq] at hid
  subst hid
  exact ⟨_, _, rfl, rfl⟩

/-- C2, amended: in a snapshot without nil pointers, when every identity listed by a
logical monitor equals the identity of exactly one monitor of the snapshot, and that
monitor has exactly one mode whose properties hold the key `"is-current"`,
`stateToRequest` returns a request whose entry for each logical monitor `L` lists one
connector/mode pair per identity of `L.Monitors`, in order, with the identity's
connector and the id of that mode. -/
theorem stateToRequest_connector_and_mode (resp : GetCurrentStateResponse)
    (hp : resp.allPresent = true)
    (h : ∀ L, some L ∈ resp.LogicalMonitors → ∀ id, some id ∈ L.Monitors → ∃ m md,
      resp.Monitors.filter (carriesId id) = [some m] ∧
      m.Modes.filter isCurrent = [some md]) :
    ∃ req, stateToRequest resp = Except.ok (Except.ok req) ∧
      List.Forall₂ (fun logical R => ∃ L, logical = some L ∧
        R.Monitors.length = L.Monitors.length ∧
        List.Forall₂ (fun listed e => ∃ id, listed = some id ∧
          e.Connector = id.Connector ∧
          ∀ m md, resp.Monitors.filter (carriesId id) = [some m] →
            m.Modes.filter isCurrent = [some md] → e.Mode = md.Id) L.Monitors R.Monitors)
        resp.LogicalMonitors req.LogicalMonitors := by
  have hem : ∀ x ∈ resp.LogicalMonitors, ∃ L, x = some L ∧
      ∀ i ∈ L.Monitors, ∃ e, Emits resp i e := by
    intro x hx
    obtain ⟨L, rfl, hL⟩ := allPresent_logicalMonitors resp hp x hx
    refine ⟨L, rfl, fun i hi => ?_⟩
    obtain ⟨id, rfl⟩ := hL i hi
    obtain ⟨m, md, hm, hmd⟩ := h L hx id hi
    exact ⟨_, emits_of_first_match resp hp id m [] md [] hm hmd⟩
  obtain ⟨rs, hrs, hall⟩ := stateToRequest_ok resp hem
  refine ⟨_, hrs, hall.imp ?_⟩
  rintro logical R ⟨L, rfl, -, -, -, -, -, hmon⟩
  refine ⟨L, rfl, hmon.length_eq.symm, hmon.imp ?_⟩
  rintro listed e ⟨id, m, md, rfl, hm, hmd, rfl⟩
  refine ⟨id, rfl, rfl, ?_⟩
  intro m1 md1 hm1 hmd1
  have e1 := (emits_of_first_match resp hp id m1 [] md1 [] hm1 hmd1)
  obtain ⟨id2, m2, md2, hid2, hm2, hmd2, he2⟩ := e1
  cases hid2
  rw [hm] at hm2
  cases hm2
  rw [hmd] at hmd2
  cases hmd2
  exact (congrArg ConnectorAndMode.Mode he2).symm

theorem stateToRequest_connector_and_mode_witness :
    stateToRequest currentFalseState = Except.ok (Except.ok
      ⟨9, 2, [⟨0, 0, ⟨1⟩, 0, true, [⟨"DP-1", "1920x1080@60", []⟩]⟩], []⟩) ∧
    ∃ req, stateToRequest currentFalseState = Except.ok (Except.ok req) ∧
      List.Forall₂ (fun logical R => ∃ L, logical = some L ∧
        R.Monitors.length = L.Monitors.length ∧
        List.Forall₂ (fun listed e => ∃ id, listed = some id ∧
          e.Connector = id.Connector ∧
          ∀ m md, currentFalseState.Monitors.filter (carriesId id) = [some m] →
            m.Modes.filter isCurrent = [some md] → e.Mode = md.Id) L.Monitors R.Monitors)
        currentFalseState.LogicalMonitors req.LogicalMonitors :=
  ⟨rfl, stateToRequest_connector_and_mode currentFalseState rfl (by
    intro L hL id hid
    simp only [currentFalseState, List.mem_singleton, Option.some.injEq] at hL
    subst hL
    simp only [logicalDP1, List.mem_singleton, Option.some.injEq] at hid
    subst hid
    exact ⟨_, _, rfl, rfl⟩)⟩

/-- C3, refuted at `missingIdState`: the listed identity resolves to a monitor that has
a mode with the key `"is-current"`, and `stateToRequest` does not succeed: it reads the
identity of the id-less monitor ahead of the match and panics. -/
theorem stateToRequest_missingId_panics :
    (∀ L, some L ∈ missingIdState.LogicalMonitors → ∀ id, some id ∈ L.Monitors →
      ∃ m others, missingIdState.Monitors.filter (carriesId id) = some m :: others ∧
        ∃ md, some md ∈ m.Modes ∧ md.Properties.hasKey "is-current" = true) ∧
    stateToRequest missingIdState = Except.error Panic.nilDereference := by
  refine ⟨?_, rfl⟩
  intro L hL id hid
  simp only [missingIdState, List.mem_singleton, Option.some.injEq] at hL
  subst hL
  simp only [logicalDP1, List.mem_singleton, Option.some.injEq] at hid
  subst hid
  exact ⟨_, _, rfl, modeCurrent, by simp, rfl⟩

/-- C3, amended: in a snapshot without nil pointers, when every identity listed by a
logical monitor resolves (first monitor of the snapshot with that identity) to a monitor
that has a mode with the key `"is-current"`, `stateToRequest` returns a request with a
`nil` error, and the request holds one entry per logical monitor, in the same order,
with `X`, `Y`, `Scale`, `Transform` and `Primary` copied. -/
theorem stateToRequest_copies_geometry (resp : GetCurrentStateResponse)
    (hp : resp.allPresent = true)
    (h : ∀ L, some L ∈ resp.LogicalMonitors → ∀ id, some id ∈ L.Monitors →
      ∃ m others, resp.Monitors.filter (carriesId id) = some m :: others ∧
        ∃ md, some md ∈ m.Modes ∧ md.Properties.hasKey "is-current" = true) :
    ∃ req, stateToRequest resp = Except.ok (Except.ok req) ∧
      req.LogicalMonitors.length = resp.LogicalMonitors.length ∧
      List.Forall₂ (fun logical R => ∃ L, logical = some L ∧
        R.X = L.X ∧ R.Y = L.Y ∧ R.Scale = L.Scale ∧ R.Transform = L.Transform ∧
          R.Primary = L.Primary) resp.LogicalMonitors req.LogicalMonitors := by
  have hem : ∀ x ∈ resp.LogicalMonitors, ∃ L, x = some L ∧
      ∀ i ∈ L.Monitors, ∃ e, Emits resp i e := by
    intro x hx
    obtain ⟨L, rfl, hL⟩ := allPresent_logicalMonitors resp hp x hx
    refine ⟨L, rfl, fun i hi => ?_⟩
    obtain ⟨id, rfl⟩ := hL i hi
    obtain ⟨m, others, hm, md, hmem, hcur⟩ := h L hx id hi
    obtain ⟨first, later, hfirst⟩ := exists_first_current m.Modes md hmem hcur
    exact ⟨_, emits_of_first_match resp hp id m others first later hm hfirst⟩
  obtain ⟨rs, hrs, hall⟩ := stateToRequest_ok resp hem
  refine ⟨_, hrs, hall.length_eq.symm, hall.imp ?_⟩
  rintro logical R ⟨L, rfl, h1, h2, h3, h4, h5, -⟩
  exact ⟨L, rfl, h1, h2, h3, h4, h5⟩

theorem stateToRequest_copies_geometry_witness :
    scenarioA.allPresent = true ∧
    ∃ req, stateToRequest scenarioA = Except.ok (Except.ok req) ∧
      req.LogicalMonitors.length = scenarioA.LogicalMonitors.length ∧
      List.Forall₂ (fun logical R => ∃ L, logical = some L ∧
        R.X = L.X ∧ R.Y = L.Y ∧ R.Scale = L.Scale ∧ R.Transform = L.Transform ∧
          R.Primary = L.Primary) scenarioA.LogicalMonitors req.LogicalMonitors :=
  ⟨rfl, stateToRequest_copies_geometry scenarioA rfl (by
    intro L hL id hid
    simp only [scenarioA, List.mem_singleton, Option.some.injEq] at hL
    subst hL
    simp only [logicalDP1, List.mem_singleton, Option.some.injEq] at hid
    subst hid
    exact ⟨_, _, rfl, modeCurrent, by simp, rfl⟩)⟩

/-- C8: every request that `stateToRequest` returns has method 2 (the persistent
policy; 0 is verify, 1 is temporary) and an empty property map, whatever the
properties of the snapshot are. -/
theorem stateToRequest_method_and_properties (resp : GetCurrentStateResponse)
    (req : ApplyMonitorsConfigRequest)
    (h : stateToRequest resp = Except.ok (Except.ok req)) :
    req.Method = 2 ∧ req.Method ≠ 0 ∧ req.Method ≠ 1 ∧ req.Properties = [] := by
  obtain ⟨rs, hr⟩ := stateToRequest_returns resp _ h
  cases hr
  exact ⟨rfl, by simp, by simp, rfl⟩

theorem stateToRequest_method_and_properties_witness :
    scenarioA.Properties ≠ [] ∧
    stateToRequest scenarioA = Except.ok (Except.ok scenarioARequest) ∧
    (scenarioARequest.Method = 2 ∧ scenarioARequest.Method ≠ 0 ∧
      scenarioARequest.Method ≠ 1 ∧ scenarioARequest.Properties = []) :=
  ⟨by decide, rfl, stateToRequest_method_and_properties scenarioA scenarioARequest rfl⟩

/-- C4, evaluated: on a snapshot whose referenced monitor has no mode with the key
`"is-current"`, `stateToRequest` stops with a nil-pointer dereference; it returns
neither a request nor an error value. -/
theorem stateToRequest_noCurrentMode_panics :
    (∃ L, some L ∈ noCurrentModeState.LogicalMonitors ∧ ∃ id, some id ∈ L.Monitors ∧
      ∃ m, some m ∈ noCurrentModeState.Monitors ∧ m.Id = some id ∧
        ∀ md, some md ∈ m.Modes → md.Properties.hasKey "is-current" = false) ∧
    noCurrentModeState.allPresent = true ∧
    stateToRequest noCurrentModeState = Except.error Panic.nilDereference ∧
    (∀ err, stateToRequest noCurrentModeState ≠ Except.ok (Except.error err)) ∧
    (∀ req, stateToRequest noCurrentModeState ≠ Except.ok (Except.ok req)) := by
  refine ⟨⟨logicalDP1, by simp [noCurrentModeState], idDP1, by simp [logicalDP1],
    ⟨some idDP1, [some modeOther], []⟩, by simp [noCurrentModeState], rfl, ?_⟩, rfl, rfl,
    ?_, ?_⟩
  · intro md hmd
    simp only [List.mem_singleton, Option.some.injEq] at hmd
    subst hmd
    rfl
  · intro err h
    cases h
  · intro req h
    cases h

/-- C5, evaluated: on a snapshot whose logical monitor lists an identity that no
monitor carries, `stateToRequest` stops with a nil-pointer dereference; it returns
neither a request nor an error value. -/
theorem stateToRequest_unknownIdentity_panics :
    (∃ L, some L ∈ unknownIdentityState.LogicalMonitors ∧ ∃ id, some id ∈ L.Monitors ∧
      ∀ m, some m ∈ unknownIdentityState.Monitors → m.Id ≠ some id) ∧
    unknownIdentityState.allPresent = true ∧
    stateToRequest unknownIdentityState = Except.error Panic.nilDereference ∧
    (∀ err, stateToRequest unknownIdentityState ≠ Except.ok (Except.error err)) ∧
    (∀ req, stateToRequest unknownIdentityState ≠ Except.ok (Except.ok req)) := by
  refine ⟨⟨logicalDP1, by simp [unknownIdentityState], idDP1, by simp [logicalDP1], ?_⟩,
    rfl, rfl, ?_, ?_⟩
  · intro m hm
    simp only [unknownIdentityState, List.mem_singleton, Option.some.injEq] at hm
    subst hm
    decide
  · intro err h
    cases h
  · intro req h
    cases h

/-- C9, refuted at `duplicateIdentityState`: the identity listed by the logical monitor
equals the identity of two monitors, and `stateToRequest` returns a request. -/
theorem stateToRequest_duplicateIdentity_succeeds :
    (∃ L, some L ∈ duplicateIdentityState.LogicalMonitors ∧ ∃ id, some id ∈ L.Monitors ∧
      2 ≤ (duplicateIdentityState.Monitors.filter (carriesId id)).length) ∧
    stateToRequest duplicateIdentityState = Except.ok (Except.ok
      { Serial := 7, Method := 2,
        LogicalMonitors := [⟨0, 0, ⟨1⟩, 0, true, [⟨"DP-1", "1920x1080@60", []⟩]⟩],
        Properties := [] }) :=
  ⟨⟨logicalDP1, by simp [duplicateIdentityState], idDP1, by simp [logicalDP1],
    by decide⟩, rfl⟩

/-- C9, amended: in a snapshot without nil pointers, when an identity listed by a
logical monitor equals the identity of two or more monitors, the monitors with that
identity are a first one and later ones, and the later ones are not consulted: provided
the first monitor with the identity of each listed identity has a mode with the key
`"is-current"`, `stateToRequest` returns a request, and for every listed identity the
emitted pair carries the identity's connector and the id of the first such mode of the
first monitor, in list order, with that identity. -/
theorem stateToRequest_first_match (resp : GetCurrentStateResponse)
    (hp : resp.allPresent = true)
    (L₀ : LogicalMonitor) (id₀ : ConnectorAndMonitorId)
    (hL₀ : some L₀ ∈ resp.LogicalMonitors) (hid₀ : some id₀ ∈ L₀.Monitors)
    (hdup : 2 ≤ (resp.Monitors.filter (carriesId id₀)).length)
    (h : ∀ L, some L ∈ resp.LogicalMonitors → ∀ id, some id ∈ L.Monitors →
      ∃ m others, resp.Monitors.filter (carriesId id) = some m :: others ∧
        ∃ md, some md ∈ m.Modes ∧ md.Properties.hasKey "is-current" = true) :
    (∃ first second others,
      resp.Monitors.filter (carriesId id₀) = some first :: second :: others) ∧
    ∃ req, stateToRequest resp = Except.ok (Except.ok req) ∧
      List.Forall₂ (fun logical R => ∃ L, logical = some L ∧
        List.Forall₂ (fun listed e => ∃ id, listed = some id ∧
          e.Connector = id.Connector ∧
          ∀ m others md later,
            resp.Monitors.filter (carriesId id) = some m :: others →
            m.Modes.filter isCurrent = some md :: later →
            e.Mode = md.Id) L.Monitors R.Monitors)
        resp.LogicalMonitors req.LogicalMonitors := by
  constructor
  · obtain ⟨m, others, hm, _⟩ := h L₀ hL₀ id₀ hid₀
    rw [hm] at hdup
    cases others with
    | nil => simp at hdup
    | cons second rest => exact ⟨m, second, rest, hm⟩
  · have hem : ∀ x ∈ resp.LogicalMonitors, ∃ L, x = some L ∧
        ∀ i ∈ L.Monitors, ∃ e, Emits resp i e := by
      intro x hx
      obtain ⟨L, rfl, hL⟩ := allPresent_logicalMonitors resp hp x hx
      refine ⟨L, rfl, fun i hi => ?_⟩
      obtain ⟨id, rfl⟩ := hL i hi
      obtain ⟨m, others, hm, md, hmem, hcur⟩ := h L hx id hi
      obtain ⟨first, later, hfirst⟩ := exists_first_current m.Modes md hmem hcur
      exact ⟨_, emits_of_first_match resp hp id m others first later hm hfirst⟩
    obtain ⟨rs, hrs, hall⟩ := stateToRequest_ok resp hem
    refine ⟨_, hrs, hall.imp ?_⟩
    rintro logical R ⟨L, rfl, -, -, -, -, -, hmon⟩
    refine ⟨L, rfl, hmon.imp ?_⟩
    rintro listed e ⟨id, m, md, rfl, hm, hmd, rfl⟩
    refine ⟨id, rfl, rfl, ?_⟩
    intro m1 others1 md1 later1 hm1 hmd1
    obtain ⟨id2, m2, md2, hid2, hm2, hmd2, he2⟩ :=
      emits_of_first_match resp hp id m1 others1 md1 later1 hm1 hmd1
    cases hid2
    rw [hm] at hm2
    cases hm2
    rw [hmd] at hmd2
    cases hmd2
    exact (congrArg ConnectorAndMode.Mode he2).symm

theorem stateToRequest_first_match_witness :
    duplicateIdentityState.allPresent = true ∧
    ((∃ first second others,
      duplicateIdentityState.Monitors.filter (carriesId idDP1) =
        some first :: second :: others) ∧
    ∃ req, stateToRequest duplicateIdentityState = Except.ok (Except.ok req) ∧
      List.Forall₂ (fun logical R => ∃ L, logical = some L ∧
        List.Forall₂ (fun listed e => ∃ id, listed = some id ∧
          e.Connector = id.Connector ∧
          ∀ m others md later,
            duplicateIdentityState.Monitors.filter (carriesId id) = some m :: others →
            m.Modes.filter isCurrent = some md :: later →
            e.Mode = md.Id) L.Monitors R.Monitors)
        duplicateIdentityState.LogicalMonitors req.LogicalMonitors) :=
  ⟨rfl, stateToRequest_first_match duplicateIdentityState rfl logicalDP1 idDP1
    (by simp [duplicateIdentityState]) (by simp [logicalDP1]) (by decide) (by
      intro L hL id hid
      simp only [duplicateIdentityState, List.mem_singleton, Option.some.injEq] at hL
      subst hL
      simp only [logicalDP1, List.mem_singleton, Option.some.injEq] at hid
      subst hid
      exact ⟨_, _, rfl, modeCurrent, by simp, rfl⟩)⟩

/-! ## Lemmas on the decoder -/

theorem index_eq_ok (raw : List DbusValue) (i : Nat) (v : DbusValue) :
    index raw i = Except.ok v ↔ raw[i]? = some v := by
  unfold index
  cases h : raw[i]? with
  | none => simp [throw, throwThe, MonadExceptOf.throw]
  | some w => simp [pure, Except.pure]

theorem assertString_eq_ok (v : DbusValue) (s : String) :
    v.assertString = Except.ok s ↔ v = DbusValue.str s := by
  cases v <;>
    simp [DbusValue.assertString, pure, Except.pure, throw, throwThe, MonadExceptOf.throw]

theorem assertInt32_eq_ok (v : DbusValue) (n : Int) :
    v.assertInt32 = Except.ok n ↔ v = DbusValue.int32 n := by
  cases v <;>
    simp [DbusValue.assertInt32, pure, Except.pure, throw, throwThe, MonadExceptOf.throw]

theorem assertUint32_eq_ok (v : DbusValue) (n : Nat) :
    v.assertUint32 = Except.ok n ↔ v = DbusValue.uint32 n := by
  cases v <;>
    simp [DbusValue.assertUint32, pure, Except.pure, throw, throwThe, MonadExceptOf.throw]

theorem assertFloat64_eq_ok (v : DbusValue) (x : Float64) :
    v.assertFloat64 = Except.ok x ↔ v = DbusValue.float64 x := by
  cases v <;>
    simp [DbusValue.assertFloat64, pure, Except.pure, throw, throwThe, MonadExceptOf.throw]

theorem assertBool_eq_ok (v : DbusValue) (b : Bool) :
    v.assertBool = Except.ok b ↔ v = DbusValue.bool b := by
  cases v <;>
    simp [DbusValue.assertBool, pure, Except.pure, throw, throwThe, MonadExceptOf.throw]

theorem assertFloat64s_eq_ok (v : DbusValue) (xs : List Float64) :
    v.assertFloat64s = Except.ok xs ↔ v = DbusValue.float64s xs := by
  cases v <;>
    simp [DbusValue.assertFloat64s, pure, Except.pure, throw, throwThe, MonadExceptOf.throw]

theorem assertDict_eq_ok (v : DbusValue) (m : VariantMap) :
    v.assertDict = Except.ok m ↔ v = DbusValue.dict m := by
  cases v <;>
    simp [DbusValue.assertDict, pure, Except.pure, throw, throwThe, MonadExceptOf.throw]

theorem assertSlice_eq_ok (v : DbusValue) (xs : List DbusValue) :
    v.assertSlice = Except.ok xs ↔ v = DbusValue.tuple xs := by
  cases v <;>
    simp [DbusValue.assertSlice, pure, Except.pure, throw, throwThe, MonadExceptOf.throw]

theorem assertSlices_eq_ok (v : DbusValue) (xs : List (List DbusValue)) :
    v.assertSlices = Except.ok xs ↔ v = DbusValue.tuples xs := by
  cases v <;>
    simp [DbusValue.assertSlices, pure, Except.pure, throw, throwThe, MonadExceptOf.throw]

/-- The identity decoder returns exactly on tuples that start with four strings, and
then with these four strings and a `nil` error. -/
theorem identity_FromDbusValue_ok_iff (value : DbusValue)
    (r : ConnectorAndMonitorId × Option GoError) :
    ConnectorAndMonitorId.FromDbusValue value = Except.ok r ↔
      ∃ c v p s rest, value = .tuple (.str c :: .str v :: .str p :: .str s :: rest) ∧
        r = (⟨c, v, p, s⟩, none) := by
  constructor
  · intro h
    simp only [ConnectorAndMonitorId.FromDbusValue, bind_eq_ok, pure_eq_ok, index_eq_ok,
      assertString_eq_ok, assertSlice_eq_ok] at h
    obtain ⟨raw, rfl, _, h0, c, rfl, _, h1, v, rfl, _, h2, p, rfl, _, h3, s, rfl, rfl⟩ := h
    rcases raw with _ | ⟨x0, _ | ⟨x1, _ | ⟨x2, _ | ⟨x3, rest⟩⟩⟩⟩ <;> simp at h0 h1 h2 h3
    subst h0 h1 h2 h3
    exact ⟨c, v, p, s, rest, rfl, rfl⟩
  · rintro ⟨c, v, p, s, rest, rfl, rfl⟩
    simp [ConnectorAndMonitorId.FromDbusValue, index, DbusValue.assertSlice,
      DbusValue.assertString, bind, Except.bind, pure, Except.pure]

theorem identity_shaped_iff (value : DbusValue) :
    ConnectorAndMonitorId.shaped value = true ↔
      ∃ c v p s rest, value = .tuple (.str c :: .str v :: .str p :: .str s :: rest) := by
  constructor
  · intro h
    unfold ConnectorAndMonitorId.shaped at h
    split at h
    · exact ⟨_, _, _, _, _, rfl⟩
    · cases h
  · rintro ⟨c, v, p, s, rest, rfl⟩
    rfl

theorem mode_FromDbusValue_ok_iff (value : DbusValue)
    (r : MonitorMode × Option GoError) :
    MonitorMode.FromDbusValue value = Except.ok r ↔
      ∃ id w h rr ps ss props rest,
        value = .tuple (.str id :: .int32 w :: .int32 h :: .float64 rr :: .float64 ps ::
          .float64s ss :: .dict props :: rest) ∧
        r = (⟨id, w, h, rr, ps, ss, props⟩, none) := by
  constructor
  · intro h
    simp only [MonitorMode.FromDbusValue, bind_eq_ok, pure_eq_ok, index_eq_ok,
      assertString_eq_ok, assertSlice_eq_ok, assertInt32_eq_ok, assertFloat64_eq_ok,
      assertFloat64s_eq_ok, assertDict_eq_ok] at h
    obtain ⟨raw, rfl, _, h0, id, rfl, _, h1, w, rfl, _, h2, ht, rfl, _, h3, rr, rfl,
      _, h4, ps, rfl, _, h5, ss, rfl, _, h6, props, rfl, rfl⟩ := h
    rcases raw with _ | ⟨x0, _ | ⟨x1, _ | ⟨x2, _ | ⟨x3, _ | ⟨x4, _ | ⟨x5, _ | ⟨x6, rest⟩⟩⟩⟩⟩⟩⟩ <;>
      simp at h0 h1 h2 h3 h4 h5 h6
    subst h0 h1 h2 h3 h4 h5 h6
    exact ⟨id, w, ht, rr, ps, ss, props, rest, rfl, rfl⟩
  · rintro ⟨id, w, h, rr, ps, ss, props, rest, rfl, rfl⟩
    simp [MonitorMode.FromDbusValue, index, DbusValue.assertSlice, DbusValue.assertString,
      DbusValue.assertInt32, DbusValue.assertFloat64, DbusValue.assertFloat64s,
      DbusValue.assertDict, bind, Except.bind, pure, Except.pure]

theorem mode_shaped_iff (value : DbusValue) :
    MonitorMode.shaped value = true ↔
      ∃ id w h rr ps ss props rest,
        value = .tuple (.str id :: .int32 w :: .int32 h :: .float64 rr :: .float64 ps ::
          .float64s ss :: .dict props :: rest) := by
  constructor
  · intro h
    unfold MonitorMode.shaped at h
    split at h
    · exact ⟨_, _, _, _, _, _, _, _, rfl⟩
    · cases h
  · rintro ⟨id, w, h, rr, ps, ss, props, rest, rfl⟩
    rfl

/-- The identity decoder returns exactly on the values of the expected shape. -/
theorem identity_decodes_iff_shaped (value : DbusValue) :
    (∃ r, ConnectorAndMonitorId.FromDbusValue value = Except.ok r) ↔
      ConnectorAndMonitorId.shaped value = true := by
  rw [identity_shaped_iff]
  constructor
  · rintro ⟨r, hr⟩
    obtain ⟨c, v, p, s, rest, h, _⟩ := (identity_FromDbusValue_ok_iff value r).mp hr
    exact ⟨c, v, p, s, rest, h⟩
  · rintro ⟨c, v, p, s, rest, h⟩
    exact ⟨_, (identity_FromDbusValue_ok_iff value _).mpr ⟨c, v, p, s, rest, h, rfl⟩⟩

/-- The mode decoder returns exactly on the values of the expected shape. -/
theorem mode_decodes_iff_shaped (value : DbusValue) :
    (∃ r, MonitorMode.FromDbusValue value = Except.ok r) ↔
      MonitorMode.shaped value = true := by
  rw [mode_shaped_iff]
  constructor
  · rintro ⟨r, hr⟩
    obtain ⟨a, b, c, d, e, f, g, rest, h, _⟩ := (mode_FromDbusValue_ok_iff value r).mp hr
    exact ⟨a, b, c, d, e, f, g, rest, h⟩
  · rintro ⟨a, b, c, d, e, f, g, rest, h⟩
    exact ⟨_, (mode_FromDbusValue_ok_iff value _).mpr
      ⟨a, b, c, d, e, f, g, rest, h, rfl⟩⟩

/-- A decoding loop returns exactly when every element decodes, and then it has
appended one record per element, in order. -/
theorem appendDecoded_ok_iff {α β : Type} (f : α → Go (β × Option GoError)) :
    ∀ (raws : List α) (acc out : List (Option β)),
      appendDecoded f raws acc = Except.ok out ↔
        ∃ ds : List β, out = acc ++ ds.map some ∧
          List.Forall₂ (fun raw d => ∃ e, f raw = Except.ok (d, e)) raws ds
  | [], acc, out => by
    simp only [appendDecoded, pure_eq_ok, List.forall₂_nil_left_iff]
    constructor
    · rintro rfl
      exact ⟨[], by simp, rfl⟩
    · rintro ⟨ds, rfl, rfl⟩
      simp
  | raw :: rest, acc, out => by
    simp only [appendDecoded, bind_eq_ok, appendDecoded_ok_iff f rest]
    constructor
    · rintro ⟨r, hr, ds, rfl, hall⟩
      exact ⟨r.1 :: ds, by simp, List.Forall₂.cons ⟨r.2, hr⟩ hall⟩
    · rintro ⟨ds, rfl, hall⟩
      cases hall with
      | cons h1 h2 =>
        obtain ⟨e, he⟩ := h1
        exact ⟨(_, e), he, _, by simp, h2⟩

/-- A decoding loop returns when every element decodes; what is known of each element
and its record is known of the two lists, position by position. -/
theorem appendDecoded_ok_of_forall {α β : Type} (f : α → Go (β × Option GoError))
    (P : α → β → Prop) :
    ∀ (raws : List α) (acc : List (Option β)),
      (∀ raw ∈ raws, ∃ d e, f raw = Except.ok (d, e) ∧ P raw d) →
      ∃ ds : List β, appendDecoded f raws acc = Except.ok (acc ++ ds.map some) ∧
        List.Forall₂ P raws ds
  | [], acc, _ => ⟨[], by simp [appendDecoded, pure, Except.pure], List.Forall₂.nil⟩
  | raw :: rest, acc, h => by
    obtain ⟨d, e, hd, hP⟩ := h raw (List.mem_cons_self _ _)
    obtain ⟨ds, hds, hall⟩ := appendDecoded_ok_of_forall f P rest (acc ++ [some d])
      (fun x hx => h x (List.mem_cons_of_mem _ hx))
    refine ⟨d :: ds, ?_, List.Forall₂.cons hP hall⟩
    obtain ⟨ds1, hds1, hall1⟩ := (appendDecoded_ok_iff f rest (acc ++ [some d]) _).mp hds
    have : ds1 = ds := by
      have := hds1
      simp only [List.append_assoc, List.singleton_append] at this
      have h2 := (List.cons.inj (List.append_cancel_left this)).2
      exact ((List.map_injective_iff.mpr (Option.some_injective β)) h2).symm
    subst this
    exact (appendDecoded_ok_iff f (raw :: rest) acc _).mpr
      ⟨d :: ds1, by simp, List.Forall₂.cons ⟨e, hd⟩ hall1⟩

theorem forall₂_exists_of_mem {α β : Type} {R : α → β → Prop} {l₁ : List α} {l₂ : List β}
    (h : List.Forall₂ R l₁ l₂) : ∀ a ∈ l₁, ∃ b ∈ l₂, R a b := by
  induction h with
  | nil => intro a ha; cases ha
  | cons h1 _ ih =>
    intro a ha
    rcases List.mem_cons.mp ha with rfl | hmem
    · exact ⟨_, List.mem_cons_self _ _, h1⟩
    · obtain ⟨b, hb, hR⟩ := ih a hmem
      exact ⟨b, List.mem_cons_of_mem _ hb, hR⟩

/-- A decoding loop panics as soon as one element does not decode. -/
theorem appendDecoded_panics {α β : Type} (f : α → Go (β × Option GoError))
    (raws : List α) (acc : List (Option β))
    (h : ∃ raw ∈ raws, ∀ r, f raw ≠ Except.ok r) :
    ∃ p, appendDecoded f raws acc = Except.error p := by
  cases hres : appendDecoded f raws acc with
  | error p => exact ⟨p, rfl⟩
  | ok out =>
    obtain ⟨ds, _, hall⟩ := (appendDecoded_ok_iff f raws acc out).mp hres
    obtain ⟨raw, hraw, hno⟩ := h
    obtain ⟨d, _, e, hd⟩ := forall₂_exists_of_mem hall raw hraw
    exact absurd hd (hno _)

theorem appendDecoded_returns_iff {α β : Type} (f : α → Go (β × Option GoError))
    (raws : List α) (acc : List (Option β)) :
    (∃ out, appendDecoded f raws acc = Except.ok out) ↔ ∀ raw ∈ raws, ∃ r, f raw = Except.ok r := by
  constructor
  · rintro ⟨out, hout⟩ raw hraw
    obtain ⟨ds, _, hall⟩ := (appendDecoded_ok_iff f raws acc out).mp hout
    obtain ⟨d, _, e, hd⟩ := forall₂_exists_of_mem hall raw hraw
    exact ⟨_, hd⟩
  · intro h
    obtain ⟨ds, hds, _⟩ := appendDecoded_ok_of_forall f (fun _ _ => True) raws acc
      (fun raw hraw => by
        obtain ⟨r, hr⟩ := h raw hraw
        exact ⟨r.1, r.2, hr, trivial⟩)
    exact ⟨_, hds⟩

theorem monitor_FromDbusValue_ok_iff (value : DbusValue) (r : Monitor × Option GoError) :
    Monitor.FromDbusValue value = Except.ok r ↔
      ∃ rawId rawModes props rest idr modes,
        value = .tuple (rawId :: .tuples rawModes :: .dict props :: rest) ∧
        ConnectorAndMonitorId.FromDbusValue rawId = Except.ok idr ∧
        appendDecoded (fun rawMode => MonitorMode.FromDbusValue (.tuple rawMode)) rawModes [] =
          Except.ok modes ∧
        r = (⟨some idr.1, modes, props⟩, none) := by
  constructor
  · intro h
    simp only [Monitor.FromDbusValue, bind_eq_ok, pure_eq_ok, index_eq_ok,
      assertSlice_eq_ok, assertSlices_eq_ok, assertDict_eq_ok] at h
    obtain ⟨raw, rfl, x0, h0, idr, hid, _, h1, rawModes, rfl, modes, hmodes, _, h2, props,
      rfl, rfl⟩ := h
    rcases raw with _ | ⟨y0, _ | ⟨y1, _ | ⟨y2, rest⟩⟩⟩ <;> simp at h0 h1 h2
    subst h0 h1 h2
    exact ⟨_, _, _, rest, idr, modes, rfl, hid, hmodes, rfl⟩
  · rintro ⟨rawId, rawModes, props, rest, idr, modes, rfl, hid, hmodes, rfl⟩
    simp [Monitor.FromDbusValue, index, DbusValue.assertSlice, DbusValue.assertSlices,
      DbusValue.assertDict, bind, Except.bind, pure, Except.pure, hid, hmodes]

theorem logicalMonitor_FromDbusValue_ok_iff (value : DbusValue)
    (r : LogicalMonitor × Option GoError) :
    LogicalMonitor.FromDbusValue value = Except.ok r ↔
      ∃ x y scale transform primary rawIds props rest ids,
        value = .tuple (.int32 x :: .int32 y :: .float64 scale :: .uint32 transform ::
          .bool primary :: .tuples rawIds :: .dict props :: rest) ∧
        appendDecoded
          (fun rawId => ConnectorAndMonitorId.FromDbusValue (.tuple rawId)) rawIds [] =
          Except.ok ids ∧
        r = (⟨x, y, scale, transform, primary, ids, props⟩, none) := by
  constructor
  · intro h
    simp only [LogicalMonitor.FromDbusValue, bind_eq_ok, pure_eq_ok, index_eq_ok,
      assertSlice_eq_ok, assertSlices_eq_ok, assertDict_eq_ok, assertInt32_eq_ok,
      assertFloat64_eq_ok, assertUint32_eq_ok, assertBool_eq_ok] at h
    obtain ⟨raw, rfl, _, h0, x, rfl, _, h1, y, rfl, _, h2, scale, rfl, _, h3, transform, rfl,
      _, h4, primary, rfl, _, h5, rawIds, rfl, ids, hids, _, h6, props, rfl, rfl⟩ := h
    rcases raw with _ | ⟨x0, _ | ⟨x1, _ | ⟨x2, _ | ⟨x3, _ | ⟨x4, _ | ⟨x5, _ | ⟨x6, rest⟩⟩⟩⟩⟩⟩⟩ <;>
      simp at h0 h1 h2 h3 h4 h5 h6
    subst h0 h1 h2 h3 h4 h5 h6
    exact ⟨_, _, _, _, _, _, _, rest, ids, rfl, hids, rfl⟩
  · rintro ⟨x, y, scale, transform, primary, rawIds, props, rest, ids, rfl, hids, rfl⟩
    simp [LogicalMonitor.FromDbusValue, index, DbusValue.assertSlice, DbusValue.assertSlices,
      DbusValue.assertDict, DbusValue.assertInt32, DbusValue.assertFloat64,
      DbusValue.assertUint32, DbusValue.assertBool, bind, Except.bind, pure, Except.pure, hids]

/-- The monitor decoder returns exactly on the values of the expected shape. -/
theorem monitor_decodes_iff_shaped (value : DbusValue) :
    (∃ r, Monitor.FromDbusValue value = Except.ok r) ↔ Monitor.shaped value = true := by
  constructor
  · rintro ⟨r, hr⟩
    obtain ⟨rawId, rawModes, props, rest, idr, modes, rfl, hid, hmodes, _⟩ :=
      (monitor_FromDbusValue_ok_iff value r).mp hr
    simp only [Monitor.shaped, Bool.and_eq_true, List.all_eq_true]
    refine ⟨(identity_decodes_iff_shaped rawId).mp ⟨_, hid⟩, ?_⟩
    intro rawMode hmem
    exact (mode_decodes_iff_shaped _).mp
      ((appendDecoded_returns_iff _ rawModes []).mp ⟨_, hmodes⟩ rawMode hmem)
  · intro h
    unfold Monitor.shaped at h
    split at h
    · rename_i rawId rawModes props rest
      simp only [Bool.and_eq_true, List.all_eq_true] at h
      obtain ⟨idr, hid⟩ := (identity_decodes_iff_shaped rawId).mpr h.1
      obtain ⟨modes, hmodes⟩ := (appendDecoded_returns_iff
        (fun rawMode => MonitorMode.FromDbusValue (.tuple rawMode)) rawModes []).mpr
        (fun rawMode hmem => (mode_decodes_iff_shaped _).mpr (h.2 rawMode hmem))
      exact ⟨_, (monitor_FromDbusValue_ok_iff _ _).mpr
        ⟨rawId, rawModes, props, rest, idr, modes, rfl, hid, hmodes, rfl⟩⟩
    · cases h

/-- The logical-monitor decoder returns exactly on the values of the expected shape. -/
theorem logicalMonitor_decodes_iff_shaped (value : DbusValue) :
    (∃ r, LogicalMonitor.FromDbusValue value = Except.ok r) ↔
      LogicalMonitor.shaped value = true := by
  constructor
  · rintro ⟨r, hr⟩
    obtain ⟨x, y, scale, transform, primary, rawIds, props, rest, ids, rfl, hids, _⟩ :=
      (logicalMonitor_FromDbusValue_ok_iff value r).mp hr
    simp only [LogicalMonitor.shaped, List.all_eq_true]
    intro rawId hmem
    exact (identity_decodes_iff_shaped _).mp
      ((appendDecoded_returns_iff _ rawIds []).mp ⟨_, hids⟩ rawId hmem)
  · intro h
    unfold LogicalMonitor.shaped at h
    split at h
    · rename_i x y scale transform primary rawIds props rest
      simp only [List.all_eq_true] at h
      obtain ⟨ids, hids⟩ := (appendDecoded_returns_iff
        (fun rawId => ConnectorAndMonitorId.FromDbusValue (.tuple rawId)) rawIds []).mpr
        (fun rawId hmem => (identity_decodes_iff_shaped _).mpr (h rawId hmem))
      exact ⟨_, (logicalMonitor_FromDbusValue_ok_iff _ _).mpr
        ⟨x, y, scale, transform, primary, rawIds, props, rest, ids, rfl, hids, rfl⟩⟩
    · cases h

theorem identity_decode_of_wellFormed (value : DbusValue)
    (h : ConnectorAndMonitorId.wellFormed value = true) :
    ∃ id, ConnectorAndMonitorId.FromDbusValue value = Except.ok (id, none) ∧
      value = .tuple id.toFields := by
  unfold ConnectorAndMonitorId.wellFormed at h
  split at h
  · rename_i c v p s
    exact ⟨⟨c, v, p, s⟩,
      (identity_FromDbusValue_ok_iff _ _).mpr ⟨c, v, p, s, [], rfl, rfl⟩, rfl⟩
  · cases h

theorem mode_shaped_of_wellFormed (value : DbusValue)
    (h : MonitorMode.wellFormed value = true) : MonitorMode.shaped value = true := by
  unfold MonitorMode.wellFormed at h
  split at h
  · rfl
  · cases h

theorem forall₂_eq_map {α β : Type} (g : β → α) {l₁ : List α} {l₂ : List β}
    (h : List.Forall₂ (fun a b => a = g b) l₁ l₂) : l₁ = l₂.map g := by
  induction h with
  | nil => rfl
  | cons h1 _ ih => rw [h1, ih]; rfl

theorem forall₂_exists_of_mem_right {α β : Type} {R : α → β → Prop} {l₁ : List α}
    {l₂ : List β} (h : List.Forall₂ R l₁ l₂) : ∀ b ∈ l₂, ∃ a ∈ l₁, R a b := by
  induction h with
  | nil => intro b hb; cases hb
  | cons h1 _ ih =>
    intro b hb
    rcases List.mem_cons.mp hb with rfl | hmem
    · exact ⟨_, List.mem_cons_self _ _, h1⟩
    · obtain ⟨a, ha, hR⟩ := ih b hmem
      exact ⟨a, List.mem_cons_of_mem _ ha, hR⟩

theorem monitor_decode_of_wellFormed (rawMonitor : List DbusValue)
    (h : Monitor.wellFormed (.tuple rawMonitor) = true) :
    ∃ monitor id, Monitor.FromDbusValue (.tuple rawMonitor) = Except.ok (monitor, none) ∧
      monitor.Id = some id ∧ rawMonitor[0]? = some (.tuple id.toFields) ∧
      monitor.Modes.all Option.isSome = true := by
  unfold Monitor.wellFormed at h
  split at h
  · rename_i heq
    rename_i rawId rawModes props
    cases heq
    simp only [Bool.and_eq_true, List.all_eq_true] at h
    obtain ⟨id, hid, hfields⟩ := identity_decode_of_wellFormed rawId h.1
    obtain ⟨modes, hmodes, _⟩ := appendDecoded_ok_of_forall
      (fun rawMode => MonitorMode.FromDbusValue (.tuple rawMode)) (fun _ _ => True)
      rawModes []
      (fun rawMode hmem => by
        obtain ⟨r, hr⟩ := (mode_decodes_iff_shaped _).mpr
          (mode_shaped_of_wellFormed _ (h.2 rawMode hmem))
        exact ⟨r.1, r.2, hr, trivial⟩)
    refine ⟨⟨some id, modes.map some, props⟩, id, (monitor_FromDbusValue_ok_iff _ _).mpr
      ⟨rawId, rawModes, props, [], (id, none), modes.map some, rfl, hid,
        by simpa using hmodes, rfl⟩, rfl, ?_, ?_⟩
    · simp [hfields]
    · simp [List.all_eq_true]
  · cases h

theorem logicalMonitor_decode_of_wellFormed (rawLogicalMonitor : List DbusValue)
    (h : LogicalMonitor.wellFormed (.tuple rawLogicalMonitor) = true) :
    ∃ (logicalMonitor : LogicalMonitor) (ids : List ConnectorAndMonitorId),
      LogicalMonitor.FromDbusValue (.tuple rawLogicalMonitor) =
        Except.ok (logicalMonitor, none) ∧
      logicalMonitor.Monitors = ids.map some ∧
      rawLogicalMonitor[5]? =
        some (.tuples (ids.map ConnectorAndMonitorId.toFields)) := by
  unfold LogicalMonitor.wellFormed at h
  split at h
  · rename_i heq
    rename_i x y scale transform primary rawIds props
    cases heq
    simp only [List.all_eq_true] at h
    obtain ⟨ids, hids, hall⟩ := appendDecoded_ok_of_forall
      (fun rawId => ConnectorAndMonitorId.FromDbusValue (.tuple rawId))
      (fun rawId id => rawId = id.toFields) rawIds []
      (fun rawId hmem => by
        obtain ⟨id, hid, hfields⟩ := identity_decode_of_wellFormed _ (h rawId hmem)
        exact ⟨id, none, hid, DbusValue.tuple.inj hfields⟩)
    refine ⟨⟨x, y, scale, transform, primary, ids.map some, props⟩, ids,
      (logicalMonitor_FromDbusValue_ok_iff _ _).mpr
        ⟨x, y, scale, transform, primary, rawIds, props, [], ids.map some, rfl,
          by simpa using hids, rfl⟩, rfl, ?_⟩
    simp [forall₂_eq_map _ hall]
  · cases h

theorem noNil_bind {α β : Type} (x : Go α) (f : α → Go β)
    (hx : NoNilDereference x) (hf : ∀ a, NoNilDereference (f a)) :
    NoNilDereference (x >>= f) := by
  cases x with
  | error p =>
    intro h
    apply hx
    simpa [bind, Except.bind] using h
  | ok a => simpa [bind, Except.bind] using hf a

theorem noNil_pure {α : Type} (a : α) : NoNilDereference (pure a : Go α) := by
  intro h
  cases h

theorem noNil_index (raw : List DbusValue) (i : Nat) : NoNilDereference (index raw i) := by
  unfold index
  cases raw[i]? <;> intro h <;> cases h

theorem noNil_assert (v : DbusValue) :
    NoNilDereference v.assertString ∧ NoNilDereference v.assertInt32 ∧
    NoNilDereference v.assertUint32 ∧ NoNilDereference v.assertFloat64 ∧
    NoNilDereference v.assertBool ∧ NoNilDereference v.assertFloat64s ∧
    NoNilDereference v.assertDict ∧ NoNilDereference v.assertSlice ∧
    NoNilDereference v.assertSlices := by
  cases v <;> refine ⟨?_, ?_, ?_, ?_, ?_, ?_, ?_, ?_, ?_⟩ <;> intro h <;> cases h

theorem noNil_appendDecoded {α β : Type} (f : α → Go (β × Option GoError))
    (hf : ∀ a, NoNilDereference (f a)) :
    ∀ (raws : List α) (acc : List (Option β)), NoNilDereference (appendDecoded f raws acc)
  | [], acc => noNil_pure acc
  | raw :: rest, acc => by
    unfold appendDecoded
    exact noNil_bind _ _ (hf raw) (fun r => noNil_appendDecoded f hf rest _)

theorem noNil_identity (value : DbusValue) :
    NoNilDereference (ConnectorAndMonitorId.FromDbusValue value) := by
  unfold ConnectorAndMonitorId.FromDbusValue
  repeat' first
    | exact noNil_pure _
    | exact noNil_index _ _
    | exact (noNil_assert _).1
    | exact (noNil_assert _).2.2.2.2.2.2.2.1
    | (apply noNil_bind)
    | intro _

theorem noNil_mode (value : DbusValue) :
    NoNilDereference (MonitorMode.FromDbusValue value) := by
  unfold MonitorMode.FromDbusValue
  repeat' first
    | exact noNil_pure _
    | exact noNil_index _ _
    | exact (noNil_assert _).1
    | exact (noNil_assert _).2.1
    | exact (noNil_assert _).2.2.2.1
    | exact (noNil_assert _).2.2.2.2.2.1
    | exact (noNil_assert _).2.2.2.2.2.2.1
    | exact (noNil_assert _).2.2.2.2.2.2.2.1
    | (apply noNil_bind)
    | intro _

theorem noNil_monitor (value : DbusValue) :
    NoNilDereference (Monitor.FromDbusValue value) := by
  unfold Monitor.FromDbusValue
  repeat' first
    | exact noNil_pure _
    | exact noNil_index _ _
    | exact noNil_identity _
    | exact noNil_appendDecoded _ (fun _ => noNil_mode _) _ _
    | exact (noNil_assert _).2.2.2.2.2.2.1
    | exact (noNil_assert _).2.2.2.2.2.2.2.1
    | exact (noNil_assert _).2.2.2.2.2.2.2.2
    | (apply noNil_bind)
    | intro _

theorem noNil_logicalMonitor (value : DbusValue) :
    NoNilDereference (LogicalMonitor.FromDbusValue value) := by
  unfold LogicalMonitor.FromDbusValue
  repeat' first
    | exact noNil_pure _
    | exact noNil_index _ _
    | exact noNil_appendDecoded _ (fun _ => noNil_identity _) _ _
    | exact (noNil_assert _).2.1
    | exact (noNil_assert _).2.2.1
    | exact (noNil_assert _).2.2.2.1
    | exact (noNil_assert _).2.2.2.2.1
    | exact (noNil_assert _).2.2.2.2.2.2.1
    | exact (noNil_assert _).2.2.2.2.2.2.2.1
    | exact (noNil_assert _).2.2.2.2.2.2.2.2
    | (apply noNil_bind)
    | intro _

theorem noNil_ToGetCurrentStateResponse (raw : GetCurrentStateRawResponse) :
    NoNilDereference raw.ToGetCurrentStateResponse := by
  unfold GetCurrentStateRawResponse.ToGetCurrentStateResponse
  repeat' first
    | exact noNil_pure _
    | exact noNil_appendDecoded _ (fun _ => noNil_monitor _) _ _
    | exact noNil_appendDecoded _ (fun _ => noNil_logicalMonitor _) _ _
    | (apply noNil_bind)
    | intro _

theorem panics_with_kind {α : Type} (x : Go α) (h : ∀ r, x ≠ Except.ok r)
    (hn : NoNilDereference x) :
    ∃ p, x = Except.error p ∧ (p = Panic.typeAssertion ∨ p = Panic.indexOutOfRange) := by
  cases x with
  | ok r => exact absurd rfl (h r)
  | error p =>
    cases p with
    | nilDereference => exact absurd rfl hn
    | typeAssertion => exact ⟨_, rfl, Or.inl rfl⟩
    | indexOutOfRange => exact ⟨_, rfl, Or.inr rfl⟩

/-! ## Claims on the decoder -/

/-- C6, refuted: on an identity tuple with too few elements, and on one with an element
of the wrong type, the decoder does not return an error value (nor anything else); it
panics, and so does `ToGetCurrentStateResponse` on a reply that holds such a tuple. -/
theorem FromDbusValue_panics_not_returns :
    ConnectorAndMonitorId.shaped shortIdentity = false ∧
    ConnectorAndMonitorId.FromDbusValue shortIdentity = Except.error Panic.indexOutOfRange ∧
    ConnectorAndMonitorId.shaped mistypedIdentity = false ∧
    ConnectorAndMonitorId.FromDbusValue mistypedIdentity = Except.error Panic.typeAssertion ∧
    shortIdentityReply.ToGetCurrentStateResponse = Except.error Panic.indexOutOfRange ∧
    (∀ id err, ConnectorAndMonitorId.FromDbusValue shortIdentity ≠ Except.ok (id, some err)) ∧
    (∀ err, shortIdentityReply.ToGetCurrentStateResponse ≠ Except.ok (Except.error err)) := by
  refine ⟨rfl, rfl, rfl, rfl, rfl, ?_, ?_⟩
  · intro id err h
    cases h
  · intro err h
    cases h

/-- C6, amended: on every raw value that lacks the expected shape of its entity (too few
positional elements, or an element of the wrong type) each decoder stops with a
run-time panic (a failed type assertion or an index out of range) and returns nothing,
and `ToGetCurrentStateResponse` panics likewise on every reply that holds such a
monitor or logical monitor.  No decoder returns an error value, and a decoder that
returns was given a value of the expected shape: no field is defaulted. -/
theorem FromDbusValue_panics_on_unexpected_shape :
    (∀ value, ConnectorAndMonitorId.shaped value = false →
      ∃ p, ConnectorAndMonitorId.FromDbusValue value = Except.error p ∧
        (p = Panic.typeAssertion ∨ p = Panic.indexOutOfRange)) ∧
    (∀ value, MonitorMode.shaped value = false →
      ∃ p, MonitorMode.FromDbusValue value = Except.error p ∧
        (p = Panic.typeAssertion ∨ p = Panic.indexOutOfRange)) ∧
    (∀ value, Monitor.shaped value = false →
      ∃ p, Monitor.FromDbusValue value = Except.error p ∧
        (p = Panic.typeAssertion ∨ p = Panic.indexOutOfRange)) ∧
    (∀ value, LogicalMonitor.shaped value = false →
      ∃ p, LogicalMonitor.FromDbusValue value = Except.error p ∧
        (p = Panic.typeAssertion ∨ p = Panic.indexOutOfRange)) ∧
    (∀ raw : GetCurrentStateRawResponse,
      ((∃ rawMonitor ∈ raw.Monitors, Monitor.shaped (.tuple rawMonitor) = false) ∨
        (∃ rawLogicalMonitor ∈ raw.LogicalMonitors,
          LogicalMonitor.shaped (.tuple rawLogicalMonitor) = false)) →
      ∃ p, raw.ToGetCurrentStateResponse = Except.error p ∧
        (p = Panic.typeAssertion ∨ p = Panic.indexOutOfRange)) ∧
    (∀ value r, ConnectorAndMonitorId.FromDbusValue value = Except.ok r →
      r.2 = none ∧ ConnectorAndMonitorId.shaped value = true) ∧
    (∀ value r, MonitorMode.FromDbusValue value = Except.ok r →
      r.2 = none ∧ MonitorMode.shaped value = true) ∧
    (∀ value r, Monitor.FromDbusValue value = Except.ok r →
      r.2 = none ∧ Monitor.shaped value = true) ∧
    (∀ value r, LogicalMonitor.FromDbusValue value = Except.ok r →
      r.2 = none ∧ LogicalMonitor.shaped value = true) ∧
    (∀ (raw : GetCurrentStateRawResponse) err,
      raw.ToGetCurrentStateResponse ≠ Except.ok (Except.error err)) := by
  refine ⟨?_, ?_, ?_, ?_, ?_, ?_, ?_, ?_, ?_, ?_⟩
  · intro value h
    refine panics_with_kind _ (fun r hr => ?_) (noNil_identity value)
    rw [(identity_decodes_iff_shaped value).mp ⟨r, hr⟩] at h
    cases h
  · intro value h
    refine panics_with_kind _ (fun r hr => ?_) (noNil_mode value)
    rw [(mode_decodes_iff_shaped value).mp ⟨r, hr⟩] at h
    cases h
  · intro value h
    refine panics_with_kind _ (fun r hr => ?_) (noNil_monitor value)
    rw [(monitor_decodes_iff_shaped value).mp ⟨r, hr⟩] at h
    cases h
  · intro value h
    refine panics_with_kind _ (fun r hr => ?_) (noNil_logicalMonitor value)
    rw [(logicalMonitor_decodes_iff_shaped value).mp ⟨r, hr⟩] at h
    cases h
  · intro raw h
    refine panics_with_kind _ (fun r hr => ?_) (noNil_ToGetCurrentStateResponse raw)
    simp only [GetCurrentStateRawResponse.ToGetCurrentStateResponse, bind_eq_ok,
      pure_eq_ok] at hr
    obtain ⟨monitors, hmon, logicalMonitors, hlog, _⟩ := hr
    rcases h with ⟨rawMonitor, hmem, hbad⟩ | ⟨rawLogicalMonitor, hmem, hbad⟩
    · rw [(monitor_decodes_iff_shaped _).mp
        ((appendDecoded_returns_iff _ raw.Monitors []).mp ⟨_, hmon⟩ rawMonitor hmem)] at hbad
      cases hbad
    · rw [(logicalMonitor_decodes_iff_shaped _).mp
        ((appendDecoded_returns_iff _ raw.LogicalMonitors []).mp ⟨_, hlog⟩
          rawLogicalMonitor hmem)] at hbad
      cases hbad
  · intro value r hr
    refine ⟨?_, (identity_decodes_iff_shaped value).mp ⟨r, hr⟩⟩
    obtain ⟨_, _, _, _, _, _, rfl⟩ := (identity_FromDbusValue_ok_iff value r).mp hr
    rfl
  · intro value r hr
    refine ⟨?_, (mode_decodes_iff_shaped value).mp ⟨r, hr⟩⟩
    obtain ⟨_, _, _, _, _, _, _, _, _, rfl⟩ := (mode_FromDbusValue_ok_iff value r).mp hr
    rfl
  · intro value r hr
    refine ⟨?_, (monitor_decodes_iff_shaped value).mp ⟨r, hr⟩⟩
    obtain ⟨_, _, _, _, _, _, _, _, _, rfl⟩ := (monitor_FromDbusValue_ok_iff value r).mp hr
    rfl
  · intro value r hr
    refine ⟨?_, (logicalMonitor_decodes_iff_shaped value).mp ⟨r, hr⟩⟩
    obtain ⟨_, _, _, _, _, _, _, _, _, _, _, rfl⟩ :=
      (logicalMonitor_FromDbusValue_ok_iff value r).mp hr
    rfl
  · intro raw err h
    simp only [GetCurrentStateRawResponse.ToGetCurrentStateResponse, bind_eq_ok,
      pure_eq_ok] at h
    obtain ⟨_, _, _, _, h⟩ := h
    cases h

/-- C7: on every well-formed reply `ToGetCurrentStateResponse` returns a response with a
`nil` error and no nil pointer in it; the identity tuple of the i-th raw monitor is the
re-encoding `[connector, vendor, product, serial]` of the identity of the i-th decoded
monitor, and the identity tuples of the j-th raw logical monitor are, in order, the
re-encodings of the identities of the j-th decoded logical monitor. -/
theorem ToGetCurrentStateResponse_identity_roundtrip (raw : GetCurrentStateRawResponse)
    (h : raw.wellFormed = true) :
    ∃ resp, raw.ToGetCurrentStateResponse = Except.ok (Except.ok resp) ∧
      resp.Serial = raw.Serial ∧ resp.allPresent = true ∧
      List.Forall₂ (fun rawMonitor monitor => ∃ m id, monitor = some m ∧ m.Id = some id ∧
          rawMonitor[0]? = some (DbusValue.tuple id.toFields))
        raw.Monitors resp.Monitors ∧
      List.Forall₂ (fun rawLogicalMonitor logicalMonitor =>
          ∃ (l : LogicalMonitor) (ids : List ConnectorAndMonitorId), logicalMonitor = some l ∧ l.Monitors = ids.map some ∧
            rawLogicalMonitor[5]? = some (DbusValue.tuples
              (ids.map ConnectorAndMonitorId.toFields)))
        raw.LogicalMonitors resp.LogicalMonitors := by
  simp only [GetCurrentStateRawResponse.wellFormed, Bool.and_eq_true, List.all_eq_true] at h
  obtain ⟨monitors, hmon, hmonAll⟩ := appendDecoded_ok_of_forall
    (fun rawMonitor => Monitor.FromDbusValue (.tuple rawMonitor))
    (fun rawMonitor (m : Monitor) => ∃ id, m.Id = some id ∧
      rawMonitor[0]? = some (DbusValue.tuple id.toFields) ∧
      m.Modes.all Option.isSome = true)
    raw.Monitors []
    (fun rawMonitor hmem => by
      obtain ⟨m, id, hm, hid, hfields, hmodes⟩ :=
        monitor_decode_of_wellFormed rawMonitor (h.1 rawMonitor hmem)
      exact ⟨m, none, hm, id, hid, hfields, hmodes⟩)
  obtain ⟨logicalMonitors, hlog, hlogAll⟩ := appendDecoded_ok_of_forall
    (fun rawLogicalMonitor => LogicalMonitor.FromDbusValue (.tuple rawLogicalMonitor))
    (fun rawLogicalMonitor (l : LogicalMonitor) =>
      ∃ ids : List ConnectorAndMonitorId, l.Monitors = ids.map some ∧
      rawLogicalMonitor[5]? = some (DbusValue.tuples
        (ids.map ConnectorAndMonitorId.toFields)))
    raw.LogicalMonitors []
    (fun rawLogicalMonitor hmem => by
      obtain ⟨l, ids, hl, hids, hfields⟩ :=
        logicalMonitor_decode_of_wellFormed rawLogicalMonitor (h.2 rawLogicalMonitor hmem)
      exact ⟨l, none, hl, ids, hids, hfields⟩)
  refine ⟨{ Serial := raw.Serial, Monitors := monitors.map some,
            LogicalMonitors := logicalMonitors.map some, Properties := raw.Properties },
    ?_, rfl, ?_, ?_, ?_⟩
  · simp only [List.nil_append] at hmon hlog
    simp only [GetCurrentStateRawResponse.ToGetCurrentStateResponse, hmon, hlog]
    rfl
  · simp only [GetCurrentStateResponse.allPresent, Bool.and_eq_true, List.all_eq_true,
      List.mem_map]
    constructor
    · rintro x ⟨m, hm, rfl⟩
      obtain ⟨_, _, id, hid, _, hmodes⟩ := forall₂_exists_of_mem_right hmonAll m hm
      simp [hid, hmodes]
    · rintro x ⟨l, hl, rfl⟩
      obtain ⟨_, _, ids, hids, _⟩ := forall₂_exists_of_mem_right hlogAll l hl
      simp [hids, List.all_eq_true]
  · rw [List.forall₂_map_right_iff]
    refine hmonAll.imp ?_
    rintro rawMonitor m ⟨id, hid, hfields, _⟩
    exact ⟨m, id, rfl, hid, hfields⟩
  · rw [List.forall₂_map_right_iff]
    refine hlogAll.imp ?_
    rintro rawLogicalMonitor l ⟨ids, hids, hfields⟩
    exact ⟨l, ids, rfl, hids, hfields⟩

theorem ToGetCurrentStateResponse_identity_roundtrip_witness :
    scenarioAReply.wellFormed = true ∧
    ∃ resp, scenarioAReply.ToGetCurrentStateResponse = Except.ok (Except.ok resp) ∧
      resp.Serial = scenarioAReply.Serial ∧ resp.allPresent = true ∧
      List.Forall₂ (fun rawMonitor monitor => ∃ m id, monitor = some m ∧ m.Id = some id ∧
          rawMonitor[0]? = some (DbusValue.tuple id.toFields))
        scenarioAReply.Monitors resp.Monitors ∧
      List.Forall₂ (fun rawLogicalMonitor logicalMonitor =>
          ∃ (l : LogicalMonitor) (ids : List ConnectorAndMonitorId), logicalMonitor = some l ∧ l.Monitors = ids.map some ∧
            rawLogicalMonitor[5]? = some (DbusValue.tuples
              (ids.map ConnectorAndMonitorId.toFields)))
        scenarioAReply.LogicalMonitors resp.LogicalMonitors :=
  ⟨rfl, ToGetCurrentStateResponse_identity_roundtrip scenarioAReply rfl⟩

theorem scenarioAReply_decodes :
    scenarioAReply.ToGetCurrentStateResponse = Except.ok (Except.ok
      { Serial := 7, Monitors := [some ⟨some idDP1, [some modeCurrent], []⟩],
        LogicalMonitors := [some logicalDP1], Properties := [] }) := by
  rfl

/-! ## Lemmas on the profile store -/

theorem mem_profilesLoop (p : String) :
    ∀ (files : List FileInfo) (profiles : List String),
      p ∈ profilesLoop files profiles ↔
        p ∈ profiles ∨ ∃ f ∈ files, f.IsDir = false ∧ stringsHasSuffix f.Name ".json" = true ∧
          p = sliceTo f.Name (f.Name.length - ".json".length)
  | [], profiles => by simp [profilesLoop]
  | file :: rest, profiles => by
    unfold profilesLoop
    by_cases hd : file.IsDir = true
    · simp only [hd, if_true, mem_profilesLoop p rest]
      simp [hd]
    · by_cases hs : stringsHasSuffix file.Name ".json" = true
      · simp only [hd, hs, Bool.not_true, if_false, Bool.false_eq_true,
          mem_profilesLoop p rest, List.mem_append, List.mem_singleton, List.mem_cons,
          exists_eq_or_imp]
        simp only [Bool.not_eq_true] at hd
        simp only [hd, true_and]
        tauto
      · simp only [Bool.not_eq_true] at hs
        simp only [hd, hs, Bool.not_false, if_true, if_false, Bool.false_eq_true,
          mem_profilesLoop p rest, List.mem_cons, exists_eq_or_imp, false_and, and_false,
          false_or]

theorem length_eq_data_length (s : String) : s.length = s.data.length := rfl

theorem stringsHasSuffix_append (name suffix : String) :
    stringsHasSuffix (name ++ suffix) suffix = true := by
  simp only [stringsHasSuffix, length_eq_data_length, String.data_append, List.length_append,
    Nat.add_sub_cancel, Bool.and_eq_true, decide_eq_true_eq, beq_iff_eq]
  exact ⟨Nat.le_add_left _ _, List.drop_left _ _⟩

theorem sliceTo_append (name suffix : String) :
    sliceTo (name ++ suffix) ((name ++ suffix).length - suffix.length) = name := by
  apply String.ext
  simp only [sliceTo, length_eq_data_length, String.data_append, List.length_append,
    Nat.add_sub_cancel]
  exact List.take_left _ _

theorem eq_append_of_stringsHasSuffix (s suffix : String)
    (h : stringsHasSuffix s suffix = true) :
    s = sliceTo s (s.length - suffix.length) ++ suffix := by
  simp only [stringsHasSuffix, Bool.and_eq_true, decide_eq_true_eq, beq_iff_eq] at h
  apply String.ext
  simp only [sliceTo, String.data_append]
  rw [← h.2]
  exact (List.take_append_drop _ _).symm

theorem hasSeparator_json (name : String) (h : hasSeparator name = false) :
    hasSeparator (name ++ ".json") = false := by
  simp only [hasSeparator, String.data_append, List.contains_eq_any_beq, List.any_append,
    Bool.or_eq_false_iff] at h ⊢
  exact ⟨h, by decide⟩

theorem lookup_cons_self (dir : Directory) (fileName : String) (e : DirEntry) :
    Directory.lookup ((fileName, e) :: dir) fileName = some e := by
  simp [Directory.lookup]

theorem ne_of_mem_unbind (dir : Directory) (fileName : String) :
    ∀ e ∈ dir.unbind fileName, e.1 ≠ fileName := by
  intro e he
  have := (List.mem_filter.mp he).2
  simpa using this

theorem lookup_unbind (dir : Directory) (fileName : String) :
    (dir.unbind fileName).lookup fileName = none := by
  have hnone : (dir.unbind fileName).find? (fun e => e.1 == fileName) = none := by
    rw [List.find?_eq_none]
    intro e he
    simpa using ne_of_mem_unbind dir fileName e he
  simp [Directory.lookup, hnone]

/-- A `Store` that returns no error has bound `name.json` to a regular file with the
data. -/
theorem Store_success (dir : Directory) (name : String) (data : Bytes)
    (h : (localStorage.Store dir name data).2 = none) :
    (localStorage.Store dir name data).1 =
      (name ++ ".json", DirEntry.file data) :: dir.unbind (name ++ ".json") := by
  unfold localStorage.Store osWriteFile at h ⊢
  by_cases h1 : hasSeparator (name ++ ".json") = true
  · simp [h1] at h
  · by_cases h2 : validFileName (name ++ ".json") = true
    · cases hl : dir.lookup (name ++ ".json") with
      | none => simp [h1, h2, hl]
      | some e =>
        cases e with
        | file d => simp [h1, h2, hl]
        | dir b => simp [h1, h2, hl] at h
    · simp [h1, h2] at h

/-- A `Delete` that returns no error has removed the binding of `name.json`. -/
theorem Delete_success (dir : Directory) (name : String)
    (h : (localStorage.Delete dir name).2 = none) :
    (localStorage.Delete dir name).1 = dir.unbind (name ++ ".json") := by
  unfold localStorage.Delete osRemove at h ⊢
  by_cases h1 : hasSeparator (name ++ ".json") = true
  · simp [h1] at h
  · by_cases h2 : validFileName (name ++ ".json") = true
    · cases hl : dir.lookup (name ++ ".json") with
      | none => simp [h1, h2, hl] at h
      | some e =>
        cases e with
        | file d => simp [h1, h2, hl]
        | dir b =>
          cases b with
          | true => simp [h1, h2, hl]
          | false => simp [h1, h2, hl] at h
    · simp [h1, h2] at h

theorem mem_List_iff (dir : Directory) (p : String) :
    (∃ names, localStorage.List dir = Except.ok names ∧ p ∈ names) ↔
      ∃ e ∈ dir, (dir.fileInfo e.1).IsDir = false ∧ stringsHasSuffix e.1 ".json" = true ∧
        p = sliceTo e.1 (e.1.length - ".json".length) := by
  simp only [localStorage.List, ioutilReadDir, Except.ok.injEq, exists_eq_left',
    mem_profilesLoop, List.not_mem_nil, false_or, List.mem_insertionSort, List.mem_map,
    List.mem_dedup]
  constructor
  · rintro ⟨f, ⟨n, ⟨e, he, rfl⟩, rfl⟩, hd, hs, hp⟩
    exact ⟨e, he, hd, hs, hp⟩
  · rintro ⟨e, he, hd, hs, hp⟩
    exact ⟨dir.fileInfo e.1, ⟨e.1, ⟨e, he, rfl⟩, rfl⟩, hd, hs, hp⟩

/-! ## Claims on the profile store -/

/-- C10, refuted: `work` and the 300-byte name hold no path separator, yet `Store`
returns an error where `work.json` is a sub-directory, and on the 300-byte name, and
`List()` afterwards does not contain the name. -/
theorem Store_fails_counterexample :
    hasSeparator "work" = false ∧
    (localStorage.Store subdirDirectory "work" [9]).2 =
      some ⟨"os.WriteFile(path, data, 0644) failed: open: is a directory"⟩ ∧
    localStorage.List (localStorage.Store subdirDirectory "work" [9]).1 =
      Except.ok ["home"] ∧
    "work" ∉ ["home"] ∧
    hasSeparator longName = false ∧
    (localStorage.Store someDirectory longName [9]).2 =
      some ⟨"os.WriteFile(path, data, 0644) failed: open: file name too long or invalid"⟩ ∧
    localStorage.List (localStorage.Store someDirectory longName [9]).1 =
      Except.ok ["home"] ∧
    longName ∉ ["home"] := by
  set_option maxRecDepth 100000 in
  refine ⟨by decide, by decide, by decide, by decide, by decide, by decide, by decide,
    by decide⟩

/-- C10, amended: for every profile name without a path separator and every data,
whenever `Store(name, data)` returns no error, `List()` then contains `name`; and
whenever the `Delete(name)` that follows returns no error, `List()` then does not
contain `name` and `Load(name)` returns an error. -/
theorem Store_List_Delete (dir : Directory) (name : String) (data : Bytes)
    (hsep : hasSeparator name = false)
    (hStore : (localStorage.Store dir name data).2 = none)
    (hDelete : (localStorage.Delete (localStorage.Store dir name data).1 name).2 = none) :
    hasSeparator (name ++ ".json") = false ∧
    (∃ names, localStorage.List (localStorage.Store dir name data).1 = Except.ok names ∧
      name ∈ names) ∧
    (∃ names,
      localStorage.List (localStorage.Delete (localStorage.Store dir name data).1 name).1 =
        Except.ok names ∧
      name ∉ names) ∧
    (∃ err,
      localStorage.Load (localStorage.Delete (localStorage.Store dir name data).1 name).1 name =
        Except.error err) := by
  have hdel := Delete_success _ name hDelete
  have hsto := Store_success dir name data hStore
  refine ⟨hasSeparator_json name hsep, ?_, ?_, ?_⟩
  · rw [hsto]
    refine (mem_List_iff _ name).mpr ⟨(name ++ ".json", DirEntry.file data),
      List.mem_cons_self _ _, ?_, stringsHasSuffix_append name ".json",
      (sliceTo_append name ".json").symm⟩
    simp [Directory.fileInfo, lookup_cons_self]
  · rw [hdel]
    obtain ⟨names, hnames⟩ : ∃ names,
        localStorage.List ((localStorage.Store dir name data).1.unbind (name ++ ".json")) =
          Except.ok names := ⟨_, rfl⟩
    refine ⟨names, hnames, ?_⟩
    intro hmem
    obtain ⟨e, he, _, hs, hp⟩ := (mem_List_iff _ name).mp ⟨names, hnames, hmem⟩
    apply ne_of_mem_unbind _ _ e he
    rw [hp]
    exact eq_append_of_stringsHasSuffix e.1 ".json" hs
  · rw [hdel]
    unfold localStorage.Load osReadFile
    split_ifs
    · exact ⟨_, rfl⟩
    · exact ⟨_, rfl⟩
    · rw [lookup_unbind]
      exact ⟨_, rfl⟩

theorem Store_List_Delete_witness :
    localStorage.List (localStorage.Store someDirectory "work" [9]).1 =
      Except.ok ["home", "work"] ∧
    localStorage.List
      (localStorage.Delete (localStorage.Store someDirectory "work" [9]).1 "work").1 =
      Except.ok ["home"] ∧
    (hasSeparator ("work" ++ ".json") = false ∧
    (∃ names, localStorage.List (localStorage.Store someDirectory "work" [9]).1 =
        Except.ok names ∧ "work" ∈ names) ∧
    (∃ names,
      localStorage.List
        (localStorage.Delete (localStorage.Store someDirectory "work" [9]).1 "work").1 =
        Except.ok names ∧
      "work" ∉ names) ∧
    (∃ err,
      localStorage.Load
        (localStorage.Delete (localStorage.Store someDirectory "work" [9]).1 "work").1 "work" =
        Except.error err)) :=
  ⟨by decide, by decide,
    Store_List_Delete someDirectory "work" [9] (by decide) (by decide) (by decide)⟩

end Gdp
